import Mathlib

/-! reverseproxy: the routing loop of `main` and the handler it registers

A shallow embedding of `src/main.go` from line 76 on.

* Go strings are Lean strings, handled through their character lists.
* The range loop runs over the pairs of `config["proxies"]` as a list, in the
  order the map iteration yields them; the theorems hold for every list, so for
  every order.
* A run is a trace of events, each tagged with the key of its iteration, the
  default mux at the end, and an outcome.
* `url.Parse` and `http.ListenAndServe` are parameters of the loop (`World`),
  so the general theorems hold for every behaviour of them.  `ListenAndServe`
  either does not return or returns an error: the library never returns a nil
  error from it.
* The library functions the loop and the handler rely on are embedded from the
  Go standard library of the time of the program (Go 1.13): `strings.HasPrefix`,
  `url.Parse`, `httputil.NewSingleHostReverseProxy` and its director,
  `http.HandleFunc`, `(*ServeMux).ServeHTTP` with the path cleaning, the
  redirects and the handler lookup it performs, `Header.Set`.
  An error value is represented by a message; only its presence matters to
  `main`, which logs it.
* The goroutine of lines 132-140 is recorded when it is started; what it does
  afterwards runs concurrently and is not part of the run.
-/

namespace Reverseproxy

/-! ## Strings -/

/-- Go `strings.HasPrefix(s, prefix)`. -/
def HasPrefix (s pre : String) : Bool := pre.data.isPrefixOf s.data

/-- Go `strings.HasSuffix(s, suffix)`. -/
def HasSuffix (s suf : String) : Bool := suf.data.reverse.isPrefixOf s.data.reverse

/-! ## Data -/

/-- The fields of `url.URL` that `main` and the reverse proxy's director read:
`Scheme`, `Host`, `Path`, `RawQuery` (and `Opaque`, which `url.Parse` fills for a
rootless URL).  `User`, `RawPath`, `ForceQuery` and `Fragment` are read by
nothing in this program and are left out. -/
structure URL where
  Scheme : String := ""
  Opaque : String := ""
  Host : String := ""
  Path : String := ""
  RawQuery : String := ""
deriving DecidableEq, Repr

/-- A value of the decoded `proxies` object, of Go type `interface{}`: `main`
asserts it to be a string (`target.(string)`, line 82). -/
inductive Value where
  | str (s : String)
  | nonString
deriving DecidableEq, Repr

/-- The `*httputil.ReverseProxy` returned by `NewSingleHostReverseProxy(target)`:
its `Director` closure is determined by the captured `target`. -/
structure ReverseProxy where
  target : URL
deriving DecidableEq, Repr

/-- Go `httputil.NewSingleHostReverseProxy`. -/
def NewSingleHostReverseProxy (target : URL) : ReverseProxy := ⟨target⟩

/-- The handlers of this program: the closure `registered` of lines 114-123
with its captured proxy, and the two handlers that the mux itself answers with,
`http.NotFoundHandler()` when nothing matches and
`http.RedirectHandler(u.String(), StatusMovedPermanently)` for a path that is
not canonical. -/
inductive Handler where
  | registered (p : ReverseProxy)
  | notFound
  | redirect (u : URL)
deriving DecidableEq, Repr

/-- The closure of lines 114-123 applied to the proxy. -/
def registered (p : ReverseProxy) : Handler := Handler.registered p

/-! ## `http.ServeMux` (the default mux) -/

/-- Go `http.ServeMux`: the pattern map `m`, the slice `es` of the entries whose
pattern ends in `/` (longest first), and the flag `hosts`. -/
structure ServeMux where
  m : List (String × Handler) := []
  es : List (String × Handler) := []
  hosts : Bool := false
deriving DecidableEq, Repr

/-- The zero value `http.DefaultServeMux` starts from. -/
def DefaultServeMux : ServeMux := {}

/-- Lookup `mux.m[pattern]`. -/
def ServeMux.lookup (m : List (String × Handler)) (pattern : String) : Option Handler :=
  match m with
  | [] => none
  | (p, h) :: rest => if p = pattern then some h else ServeMux.lookup rest pattern

/-- Go `appendSorted`: insert before the first entry with a shorter pattern. -/
def appendSorted (es : List (String × Handler)) (e : String × Handler) :
    List (String × Handler) :=
  match es with
  | [] => [e]
  | x :: rest =>
    if x.1.length < e.1.length then e :: x :: rest else x :: appendSorted rest e

/-- Go `(*ServeMux).Handle` (which `http.HandleFunc` calls on the default mux):
panics on an empty pattern and on a pattern already registered. -/
def ServeMux.Handle (mux : ServeMux) (pattern : String) (handler : Handler) :
    Except String ServeMux :=
  if pattern = "" then
    Except.error "http: invalid pattern"
  else if (ServeMux.lookup mux.m pattern).isSome then
    Except.error ("http: multiple registrations for " ++ pattern)
  else
    Except.ok
      { m := (pattern, handler) :: mux.m
        es := if HasSuffix pattern "/" then appendSorted mux.es (pattern, handler) else mux.es
        hosts := if HasPrefix pattern "/" then mux.hosts else true }

/-- Go `(*ServeMux).match`: an exact match first, then the longest pattern
ending in `/` that is a prefix of the path. -/
def ServeMux.match (mux : ServeMux) (path : String) : Option (Handler × String) :=
  match ServeMux.lookup mux.m path with
  | some h => some (h, path)
  | none =>
    match mux.es.find? (fun e => HasPrefix path e.1) with
    | some e => some (e.2, e.1)
    | none => none

/-- Go `(*ServeMux).handler(host, path)`: host-specific patterns first when any
was registered, then the generic ones, then the not-found handler. -/
def ServeMux.handler (mux : ServeMux) (host path : String) : Handler × String :=
  let r := if mux.hosts then mux.match (host ++ path) else none
  match r with
  | some hp => hp
  | none =>
    match mux.match path with
    | some hp => hp
    | none => (Handler.notFound, "")

/-! ## The loop of `main` -/

/-- The command-line flags `main` reads. -/
structure Flags where
  httpAddress : String := ":8080"
  httpsAddress : String := ":8090"
  httpsEnabled : Bool := false
deriving DecidableEq, Repr

/-- The two library calls whose result depends on the outside world.
`Parse` is `url.Parse`.  `ListenAndServe addr` is `none` when the call serves
forever and `some err` when it returns the error `err` (the library never
returns a nil error from it). -/
structure World where
  Parse : String → Except String URL
  ListenAndServe : String → Option String

/-- What an iteration does, in program order. -/
inductive Event where
  /-- line 77, the log line with host and target -/
  | logTarget (target : Value)
  /-- line 85, the logged parse error -/
  | logError (err : String)
  /-- line 89, the warning to run with -https-enabled -/
  | logHttpsDisabled
  /-- line 105, the printed "New proxy" line -/
  | printNewProxy (targetURL : URL)
  /-- line 107, the proxy is constructed -/
  | newProxy (p : ReverseProxy)
  /-- line 125, the handler is registered on the default mux -/
  | handleFunc (pattern : String) (h : Handler)
  /-- lines 132-140, the goroutine calling ListenAndServeTLS is started -/
  | goListenAndServeTLS (addr : String)
  /-- line 143, the log line announcing the HTTP server -/
  | logStartHTTP (addr : String)
  /-- line 145, ListenAndServe is called -/
  | listenAndServe (addr : String)
deriving DecidableEq, Repr

/-- How `main` ends. -/
inductive Outcome where
  /-- the range loop ran out of entries and main returned -/
  | returned
  /-- a run-time panic -/
  | panicked (msg : String)
  /-- ListenAndServe is serving and does not return -/
  | serving
  /-- log.Fatalln(err) after ListenAndServe returned err -/
  | fatal (err : String)
deriving DecidableEq, Repr

/-- The result of one pass through the loop body: fall through to the next
entry (`continue`), or never reach the next entry. -/
inductive Step where
  | next (mux : ServeMux) (events : List Event)
  | stop (mux : ServeMux) (events : List Event) (outcome : Outcome)
deriving DecidableEq, Repr

/-- The rest of the loop body for a pair that passed the guards, lines 105-147:
the proxy for the target's scheme and host, the handler on the pattern `/`,
the TLS goroutine when HTTPS is enabled, and the call of ListenAndServe.
`ev0` holds the log events of the iteration so far. -/
def bodyServe (env : World) (flags : Flags) (mux : ServeMux) (ev0 : List Event)
    (targetURL : URL) : Step :=
  let proxy := NewSingleHostReverseProxy
    { Scheme := targetURL.Scheme, Host := targetURL.Host }
  let ev1 := ev0 ++ [Event.printNewProxy targetURL, Event.newProxy proxy]
  match mux.Handle "/" (registered proxy) with
  | Except.error msg => Step.stop mux ev1 (Outcome.panicked msg)
  | Except.ok mux1 =>
    let ev2 := ev1 ++ [Event.handleFunc "/" (registered proxy)]
      ++ (if flags.httpsEnabled then [Event.goListenAndServeTLS flags.httpsAddress] else [])
      ++ [Event.logStartHTTP flags.httpAddress, Event.listenAndServe flags.httpAddress]
    match env.ListenAndServe flags.httpAddress with
    | none => Step.stop mux1 ev2 Outcome.serving
    | some err => Step.stop mux1 ev2 (Outcome.fatal err)

/-- The body of the range loop, lines 77-147, for one `host, target` pair. -/
def body (env : World) (flags : Flags) (mux : ServeMux) (host : String) (target : Value) :
    Step :=
  let ev0 := [Event.logTarget target]
  if HasPrefix host "#" then
    Step.next mux ev0
  else
    match target with
    | Value.nonString =>
      Step.stop mux ev0 (Outcome.panicked "interface conversion: interface \x7b\x7d is not string")
    | Value.str s =>
      match env.Parse s with
      | Except.error err => Step.next mux (ev0 ++ [Event.logError err])
      | Except.ok targetURL =>
        if targetURL.Scheme = "https" ∧ flags.httpsEnabled = false then
          Step.next mux (ev0 ++ [Event.logHttpsDisabled])
        else
          bodyServe env flags mux ev0 targetURL

/-- A run of `main`: the events, each with the key of the iteration that
produced it, the default mux at the end, and how the run ended. -/
structure Run where
  trace : List (String × Event)
  mux : ServeMux
  outcome : Outcome
deriving DecidableEq, Repr

/-- The range loop of line 76 over the entries in the order the map iteration
yields them, from a given state of the default mux. -/
def rangeLoop (env : World) (flags : Flags) (mux : ServeMux) :
    List (String × Value) → Run
  | [] => ⟨[], mux, Outcome.returned⟩
  | (host, target) :: rest =>
    match body env flags mux host target with
    | Step.next mux1 evs =>
      let r := rangeLoop env flags mux1 rest
      ⟨evs.map (fun e => (host, e)) ++ r.trace, r.mux, r.outcome⟩
    | Step.stop mux1 evs o => ⟨evs.map (fun e => (host, e)), mux1, o⟩

/-- The part of `main` from line 76 on: the loop over `config["proxies"]`,
started with the empty default mux. -/
def main (env : World) (flags : Flags) (proxies : List (String × Value)) : Run :=
  rangeLoop env flags DefaultServeMux proxies

/-! ## Response headers -/

/-- Go `http.Header`, a `map[string][]string`: the value list of each key that
is present. -/
def Header := String → Option (List String)

/-- ASCII upper-case letter. -/
def isUpperByte (c : Char) : Bool := 65 ≤ c.toNat && c.toNat ≤ 90

/-- ASCII lower-case letter. -/
def isLowerByte (c : Char) : Bool := 97 ≤ c.toNat && c.toNat ≤ 122

/-- ASCII digit. -/
def isDigitByte (c : Char) : Bool := 48 ≤ c.toNat && c.toNat ≤ 57

/-- Go `textproto.validHeaderFieldByte`: the token characters of RFC 7230,
letters, digits and ``!#$%&'*+-.^_`|~``. -/
def validHeaderFieldByte (c : Char) : Bool :=
  isUpperByte c || isLowerByte c || isDigitByte c ||
    [33, 35, 36, 37, 38, 39, 42, 43, 45, 46, 94, 95, 96, 124, 126].contains c.toNat

/-- The canonicalising loop of Go `textproto.canonicalMIMEHeaderKey`: upper case
for the first letter and after each dash, lower case elsewhere. -/
def canonicalLoop (upper : Bool) : List Char → List Char
  | [] => []
  | c :: cs =>
    let c1 :=
      if upper && isLowerByte c then Char.ofNat (c.toNat - 32)
      else if !upper && isUpperByte c then Char.ofNat (c.toNat + 32)
      else c
    c1 :: canonicalLoop (c1 == '-') cs

/-- Go `textproto.canonicalMIMEHeaderKey`: a key with a byte that is not a
header field byte is returned unchanged. -/
def canonicalMIMEHeaderKey (a : List Char) : List Char :=
  if a.all validHeaderFieldByte then canonicalLoop true a else a

/-- The quick check of Go `textproto.CanonicalMIMEHeaderKey`. -/
def CanonicalMIMEHeaderKeyFrom (s : List Char) (upper : Bool) : List Char → List Char
  | [] => s
  | c :: cs =>
    if !validHeaderFieldByte c then s
    else if upper && isLowerByte c then canonicalMIMEHeaderKey s
    else if !upper && isUpperByte c then canonicalMIMEHeaderKey s
    else CanonicalMIMEHeaderKeyFrom s (c == '-') cs

/-- Go `textproto.CanonicalMIMEHeaderKey`. -/
def CanonicalMIMEHeaderKey (s : String) : String :=
  ⟨CanonicalMIMEHeaderKeyFrom s.data true s.data⟩

/-- Go `Header.Set(key, value)`: `h[CanonicalMIMEHeaderKey(key)] = []string{value}`. -/
def Header.Set (h : Header) (key value : String) : Header :=
  fun k => if k = CanonicalMIMEHeaderKey key then some [value] else h k

/-! ## Requests and the reverse proxy's director -/

/-- The fields of `http.Request` that the mux, the handler and the director
read or write. -/
structure Request where
  Method : String := "GET"
  Host : String := ""
  URL : URL := {}
  Header : Header := fun _ => none
  RemoteAddr : String := ""
  RequestURI : String := ""

/-- Go `httputil.singleJoiningSlash`. -/
def singleJoiningSlash (a b : String) : String :=
  let aslash := HasSuffix a "/"
  let bslash := HasPrefix b "/"
  if aslash && bslash then a ++ ⟨b.data.drop 1⟩
  else if !aslash && !bslash then a ++ "/" ++ b
  else a ++ b

/-- The `Director` closure that `NewSingleHostReverseProxy(target)` builds. -/
def ReverseProxy.Director (p : ReverseProxy) (req : Request) : Request :=
  let targetQuery := p.target.RawQuery
  { req with
    URL :=
      { req.URL with
        Scheme := p.target.Scheme
        Host := p.target.Host
        Path := singleJoiningSlash p.target.Path req.URL.Path
        RawQuery :=
          if targetQuery = "" ∨ req.URL.RawQuery = "" then targetQuery ++ req.URL.RawQuery
          else targetQuery ++ "&" ++ req.URL.RawQuery }
    Header :=
      if (req.Header "User-Agent").isSome then req.Header
      else Header.Set req.Header "User-Agent" "" }

/-- What serving a request comes to: the not-found reply (404), the redirect
to a URL (301), the bad-request reply (400), or the call `p.ServeHTTP(w, r)` of
line 121 with the response headers as they are at that moment. -/
inductive Served where
  | notFound
  | redirect (u : URL)
  | badRequest
  | proxied (p : ReverseProxy) (w : Header) (r : Request)

/-- Serving a request with a handler: the closure of lines 115-122 sets the two
CORS headers and hands the request to the proxy; the not-found handler replies
404 and the redirect handler 301.  The log and print lines 116-118 are left
out. -/
def Handler.ServeHTTP : Handler → Header → Request → Served
  | Handler.registered p, w, r =>
    let w1 := Header.Set w "Access-Control-Allow-Origin" "*"
    let w2 := Header.Set w1 "Access-Control-Allow-Headers" "X-Requested-With"
    Served.proxied p w2 r
  | Handler.notFound, _, _ => Served.notFound
  | Handler.redirect u, _, _ => Served.redirect u

/-- The request a proxy sends to its backend for an inbound request: the
director's rewrite. -/
def ReverseProxy.outreq (p : ReverseProxy) (r : Request) : Request := p.Director r

/-! ## `url.Parse`

The parser of Go's `net/url`, function by function.  A Go string is a byte
sequence; here a byte is a character, and a percent escape decodes to the
character with that code. -/

/-- Go `strings.Index(s, sep)` for a non-empty `sep`. -/
def Index (sep : List Char) : List Char → Option Nat
  | [] => none
  | c :: cs =>
    if sep.isPrefixOf (c :: cs) then some 0 else (Index sep cs).map (· + 1)

/-- Go `strings.LastIndex(s, sep)` for a one-byte `sep`. -/
def LastIndexByte (sep : Char) (s : List Char) : Option Nat :=
  (Index [sep] s.reverse).map (fun i => s.length - 1 - i)

/-- Go `url.split(s, sep, cutc)` for a one-byte `sep`: the parts before and
after the first `sep`, which stays at the head of the second part unless `cutc`. -/
def split (s : List Char) (sep : Char) (cutc : Bool) : List Char × List Char :=
  match Index [sep] s with
  | none => (s, [])
  | some i => if cutc then (s.take i, s.drop (i + 1)) else (s.take i, s.drop i)

/-- Go `url.stringContainsCTLByte`. -/
def stringContainsCTLByte (s : List Char) : Bool :=
  s.any (fun b => b.toNat < 32 || b.toNat == 127)

/-- The loop of Go `url.getscheme`, at index `i` with `cs` still to read. -/
def getschemeFrom (rawurl : List Char) : Nat → List Char → Except String (List Char × List Char)
  | _, [] => Except.ok ([], rawurl)
  | i, c :: cs =>
    if isLowerByte c || isUpperByte c then getschemeFrom rawurl (i + 1) cs
    else if isDigitByte c || c == '+' || c == '-' || c == '.' then
      if i = 0 then Except.ok ([], rawurl) else getschemeFrom rawurl (i + 1) cs
    else if c == ':' then
      if i = 0 then Except.error "missing protocol scheme"
      else Except.ok (rawurl.take i, cs)
    else Except.ok ([], rawurl)

/-- Go `url.getscheme`: the scheme and what follows its colon. -/
def getscheme (rawurl : List Char) : Except String (List Char × List Char) :=
  getschemeFrom rawurl 0 rawurl

/-- Go `strings.ToLower` on ASCII text. -/
def ToLower (s : List Char) : List Char :=
  s.map (fun c => if isUpperByte c then Char.ofNat (c.toNat + 32) else c)

/-- Go `url.ishex`. -/
def ishex (c : Char) : Bool :=
  isDigitByte c || (97 ≤ c.toNat && c.toNat ≤ 102) || (65 ≤ c.toNat && c.toNat ≤ 70)

/-- Go `url.unhex`. -/
def unhex (c : Char) : Nat :=
  if isDigitByte c then c.toNat - 48
  else if 97 ≤ c.toNat && c.toNat ≤ 102 then c.toNat - 97 + 10
  else if 65 ≤ c.toNat && c.toNat ≤ 70 then c.toNat - 65 + 10
  else 0

/-- The modes of Go `url.unescape` that `url.Parse` uses. -/
inductive encoding where
  | encodePath
  | encodeHost
  | encodeZone
  | encodeUserPassword
  | encodeFragment
deriving DecidableEq, Repr

/-- Go `url.shouldEscape(c, encodeHost)`: false on letters, digits, the
sub-delims, `: [ ] < > "` and the unreserved marks `- _ . ~`. -/
def shouldEscapeHost (c : Nat) : Bool :=
  !((65 ≤ c && c ≤ 90) || (97 ≤ c && c ≤ 122) || (48 ≤ c && c ≤ 57) ||
    [33, 36, 38, 39, 40, 41, 42, 43, 44, 59, 61, 58, 91, 93, 60, 62, 34].contains c ||
    [45, 95, 46, 126].contains c)

/-- Go `url.unescape(s, mode)`: the check of the percent escapes and of the
host bytes, and the decoding, in one pass. -/
def unescape (mode : encoding) : List Char → Except String (List Char)
  | [] => Except.ok []
  | '%' :: a :: b :: rest =>
    if !ishex a || !ishex b then Except.error "invalid URL escape"
    else if mode = encoding.encodeHost ∧ unhex a < 8 ∧ ¬ (a = '2' ∧ b = '5') then
      Except.error "invalid URL escape"
    else if mode = encoding.encodeZone ∧ ¬ (a = '2' ∧ b = '5') ∧ unhex a * 16 + unhex b ≠ 32
        ∧ shouldEscapeHost (unhex a * 16 + unhex b) = true then
      Except.error "invalid URL escape"
    else
      match unescape mode rest with
      | Except.error e => Except.error e
      | Except.ok r => Except.ok (Char.ofNat (unhex a * 16 + unhex b) :: r)
  | c :: rest =>
    if c == '%' then Except.error "invalid URL escape"
    else if (mode = encoding.encodeHost ∨ mode = encoding.encodeZone) ∧ c.toNat < 128
        ∧ shouldEscapeHost c.toNat = true then
      Except.error "invalid character in host name"
    else
      match unescape mode rest with
      | Except.error e => Except.error e
      | Except.ok r => Except.ok (c :: r)

/-- Go `url.validOptionalPort`. -/
def validOptionalPort (port : List Char) : Bool :=
  match port with
  | [] => true
  | c :: digits => c == ':' && digits.all isDigitByte

/-- Go `url.validUserinfo`. -/
def validUserinfo (s : List Char) : Bool :=
  s.all (fun r => isUpperByte r || isLowerByte r || isDigitByte r ||
    [45, 46, 95, 58, 126, 33, 36, 38, 39, 40, 41, 42, 43, 44, 59, 61, 37, 64].contains r.toNat)

/-- Go `url.parseHost`: a host, or a bracketed IP literal, with an optional port. -/
def parseHost (host : List Char) : Except String (List Char) :=
  let plain : Except String (List Char) := unescape encoding.encodeHost host
  if host.head? = some '[' then
    match LastIndexByte ']' host with
    | none => Except.error "missing ']' in host"
    | some i =>
      if !validOptionalPort (host.drop (i + 1)) then Except.error "invalid port after host"
      else
        match Index ['%', '2', '5'] (host.take i) with
        | some zone =>
          match unescape encoding.encodeHost (host.take zone),
                unescape encoding.encodeZone ((host.take i).drop zone),
                unescape encoding.encodeHost (host.drop i) with
          | Except.ok host1, Except.ok host2, Except.ok host3 => Except.ok (host1 ++ host2 ++ host3)
          | Except.error e, _, _ => Except.error e
          | _, Except.error e, _ => Except.error e
          | _, _, Except.error e => Except.error e
        | none => plain
  else
    match LastIndexByte ':' host with
    | some i =>
      if !validOptionalPort (host.drop i) then Except.error "invalid port after host"
      else plain
    | none => plain

/-- Go `url.parseAuthority`, for its host and its errors (the user information
is checked and dropped). -/
def parseAuthority (authority : List Char) : Except String (List Char) :=
  match LastIndexByte '@' authority with
  | none => parseHost authority
  | some i =>
    match parseHost (authority.drop (i + 1)) with
    | Except.error e => Except.error e
    | Except.ok host =>
      let userinfo := authority.take i
      if !validUserinfo userinfo then Except.error "net/url: invalid userinfo"
      else if !userinfo.contains ':' then
        match unescape encoding.encodeUserPassword userinfo with
        | Except.error e => Except.error e
        | Except.ok _ => Except.ok host
      else
        let up := split userinfo ':' true
        match unescape encoding.encodeUserPassword up.1,
              unescape encoding.encodeUserPassword up.2 with
        | Except.ok _, Except.ok _ => Except.ok host
        | Except.error e, _ => Except.error e
        | _, Except.error e => Except.error e

/-- The end of Go `url.parse`: the authority, then `setPath`. -/
def parseAuthorityAndPath (scheme rawQuery rest : List Char) (viaRequest : Bool) :
    Except String URL :=
  if (scheme ≠ [] ∨ (viaRequest = false ∧ ['/', '/', '/'].isPrefixOf rest = false))
      ∧ ['/', '/'].isPrefixOf rest = true then
    let ar := split (rest.drop 2) '/' false
    match parseAuthority ar.1 with
    | Except.error e => Except.error e
    | Except.ok host =>
      match unescape encoding.encodePath ar.2 with
      | Except.error e => Except.error e
      | Except.ok path =>
        Except.ok { Scheme := ⟨scheme⟩, Host := ⟨host⟩, Path := ⟨path⟩, RawQuery := ⟨rawQuery⟩ }
  else
    match unescape encoding.encodePath rest with
    | Except.error e => Except.error e
    | Except.ok path => Except.ok { Scheme := ⟨scheme⟩, Path := ⟨path⟩, RawQuery := ⟨rawQuery⟩ }

/-- Go `url.parse(rawurl, viaRequest)`. -/
def parse (rawurl : List Char) (viaRequest : Bool) : Except String URL :=
  if stringContainsCTLByte rawurl then
    Except.error "net/url: invalid control character in URL"
  else if rawurl = [] ∧ viaRequest = true then Except.error "empty url"
  else if rawurl = ['*'] then Except.ok { Path := "*" }
  else
    match getscheme rawurl with
    | Except.error e => Except.error e
    | Except.ok (scheme0, rest0) =>
      let scheme := ToLower scheme0
      let rq : List Char × List Char :=
        if ['?'].isPrefixOf rest0.reverse ∧ rest0.count '?' = 1 then (rest0.dropLast, [])
        else split rest0 '?' true
      let rest := rq.1
      if ['/'].isPrefixOf rest = false then
        if scheme ≠ [] then
          Except.ok { Scheme := ⟨scheme⟩, Opaque := ⟨rest⟩, RawQuery := ⟨rq.2⟩ }
        else if viaRequest then Except.error "invalid URI for request"
        else if (split rest '/' true).1.contains ':' then
          Except.error "first path segment in URL cannot contain colon"
        else parseAuthorityAndPath scheme rq.2 rest viaRequest
      else parseAuthorityAndPath scheme rq.2 rest viaRequest

/-- Go `url.Parse(rawurl)`: the fragment is cut off and checked, the rest parsed. -/
def Parse (rawurl : String) : Except String URL :=
  let uf := split rawurl.data '#' true
  match parse uf.1 false with
  | Except.error e => Except.error ("parse: " ++ e)
  | Except.ok url =>
    if uf.2 = [] then Except.ok url
    else
      match unescape encoding.encodeFragment uf.2 with
      | Except.error e => Except.error ("parse: " ++ e)
      | Except.ok _ => Except.ok url

/-- The world of a run: Go's `url.Parse`, and a `ListenAndServe` that ends as
`listen` says (`none`: it serves and does not return). -/
def goWorld (listen : Option String) : World :=
  { Parse := Parse, ListenAndServe := fun _ => listen }

/-! ## The mux serving a request

`(*ServeMux).ServeHTTP` and what it calls, function by function. -/

/-- The path elements between slashes. -/
def pathElements : List Char → List (List Char)
  | [] => [[]]
  | c :: cs =>
    if c = '/' then [] :: pathElements cs
    else
      match pathElements cs with
      | e :: es => (c :: e) :: es
      | [] => [[c]]

/-- The backtracking of Go `path.Clean` at a `..` element, on the reversed
output buffer: the last byte goes, and bytes go on going while the buffer is
longer than `dotdot` and the byte that went was no slash. -/
def backtrack (dotdot : Nat) : List Char → List Char
  | [] => []
  | c :: rest => if rest.length > dotdot && c != '/' then backtrack dotdot rest else rest

/-- One turn of the loop of Go `path.Clean`, for the path element at the read
index: the state is the reversed output buffer and the index `dotdot`. -/
def cleanStep (rooted : Bool) (st : List Char × Nat) (e : List Char) : List Char × Nat :=
  if e = [] then st
  else if e = ['.'] then st
  else if e = ['.', '.'] then
    if st.1.length > st.2 then (backtrack st.2 st.1, st.2)
    else if rooted then st
    else
      (('.' :: '.' :: (if st.1.length > 0 then '/' :: st.1 else st.1)),
        ('.' :: '.' :: (if st.1.length > 0 then '/' :: st.1 else st.1)).length)
  else
    ((e.reverse ++
        (if (rooted && st.1.length != 1) || (!rooted && st.1.length != 0) then '/' :: st.1
          else st.1)),
      st.2)

/-- Go `path.Clean`. -/
def Clean (path : List Char) : List Char :=
  if path = [] then ['.']
  else
    let rooted : Bool := path.head? = some '/'
    let st := (pathElements (if rooted then path.drop 1 else path)).foldl (cleanStep rooted)
      (if rooted then (['/'], 1) else ([], 0))
    if st.1 = [] then ['.'] else st.1.reverse

/-- Go `http.cleanPath`: the canonical path, with the trailing slash put back. -/
def cleanPath (p : String) : String :=
  if p = "" then "/"
  else
    let p1 := if p.data.head? = some '/' then p.data else '/' :: p.data
    let np := Clean p1
    if p1.getLast? = some '/' ∧ np ≠ ['/'] then
      if p1.length = np.length + 1 ∧ np.isPrefixOf p1 = true then ⟨p1⟩ else ⟨np ++ ['/']⟩
    else ⟨np⟩

/-- The last checks of Go `net.SplitHostPort`: no `[` from index `j` on, no `]`
from index `k` on; the port is what follows the last colon, at index `i`. -/
def splitHostPortEnd (hostport host : List Char) (i j k : Nat) :
    Except String (List Char × List Char) :=
  if (hostport.drop j).contains '[' then Except.error "unexpected '[' in address"
  else if (hostport.drop k).contains ']' then Except.error "unexpected ']' in address"
  else Except.ok (host, hostport.drop (i + 1))

/-- Go `net.SplitHostPort`. -/
def SplitHostPort (hostport : List Char) : Except String (List Char × List Char) :=
  match LastIndexByte ':' hostport with
  | none => Except.error "missing port in address"
  | some i =>
    if hostport.head? = some '[' then
      match Index [']'] hostport with
      | none => Except.error "missing ']' in address"
      | some e =>
        if e + 1 = hostport.length then Except.error "missing port in address"
        else if e + 1 = i then
          splitHostPortEnd hostport ((hostport.take e).drop 1) i 1 (e + 1)
        else if hostport.get? (e + 1) = some ':' then
          Except.error "too many colons in address"
        else Except.error "missing port in address"
    else if (hostport.take i).contains ':' then Except.error "too many colons in address"
    else splitHostPortEnd hostport (hostport.take i) i 0 0

/-- Go `http.stripHostPort`: the host without a trailing port. -/
def stripHostPort (h : String) : String :=
  if Index [':'] h.data = none then h
  else
    match SplitHostPort h.data with
    | Except.ok hp => ⟨hp.1⟩
    | Except.error _ => h

/-- Go `(*ServeMux).shouldRedirectRLocked`: whether `path` is not registered
while `path + "/"` is. -/
def ServeMux.shouldRedirectRLocked (mux : ServeMux) (host path : String) : Bool :=
  if (ServeMux.lookup mux.m path).isSome || (ServeMux.lookup mux.m (host ++ path)).isSome then
    false
  else if path.data.length = 0 then false
  else if (ServeMux.lookup mux.m (path ++ "/")).isSome then
    decide (path.data.getLast? ≠ some '/')
  else if (ServeMux.lookup mux.m (host ++ path ++ "/")).isSome then
    decide (path.data.getLast? ≠ some '/')
  else false

/-- Go `(*ServeMux).redirectToPathSlash`: the URL to redirect to, when the
redirect applies. -/
def ServeMux.redirectToPathSlash (mux : ServeMux) (host path : String) (u : URL) :
    Option URL :=
  if mux.shouldRedirectRLocked host path then
    some { Path := path ++ "/", RawQuery := u.RawQuery }
  else none

/-- Go `(*ServeMux).Handler`: the handler for a request.  A CONNECT request is
looked up as it is; every other request has the port stripped from its host
and is redirected when its path is not the cleaned path. -/
def ServeMux.Handler (mux : ServeMux) (r : Request) : Reverseproxy.Handler × String :=
  if r.Method = "CONNECT" then
    match mux.redirectToPathSlash r.URL.Host r.URL.Path r.URL with
    | some u => (Reverseproxy.Handler.redirect u, u.Path)
    | none => mux.handler r.Host r.URL.Path
  else
    match mux.redirectToPathSlash (stripHostPort r.Host) (cleanPath r.URL.Path) r.URL with
    | some u => (Reverseproxy.Handler.redirect u, u.Path)
    | none =>
      if cleanPath r.URL.Path ≠ r.URL.Path then
        (Reverseproxy.Handler.redirect { r.URL with Path := cleanPath r.URL.Path },
          (mux.handler (stripHostPort r.Host) (cleanPath r.URL.Path)).2)
      else mux.handler (stripHostPort r.Host) r.URL.Path

/-- Go `(*ServeMux).ServeHTTP`: 400 for the request URI `*`, otherwise the
handler that `Handler` picks serves the request. -/
def ServeMux.ServeHTTP (mux : ServeMux) (w : Header) (r : Request) : Served :=
  if r.RequestURI = "*" then Served.badRequest
  else (mux.Handler r).1.ServeHTTP w r

/-! ## Reading a run -/

/-- The events that only write to the log or to standard output. -/
def Event.isLog : Event → Bool
  | Event.logTarget _ => true
  | Event.logError _ => true
  | Event.logHttpsDisabled => true
  | Event.printNewProxy _ => true
  | Event.logStartHTTP _ => true
  | _ => false

/-- The events of a run that are not log lines: proxies constructed, handlers
registered, listeners started, each with the key of its iteration. -/
def Run.effects (r : Run) : List (String × Event) :=
  r.trace.filter (fun x => !x.2.isLog)

/-- A routing entry as the specification names it. -/
structure RoutingEntry where
  hostPattern : String
  backendScheme : String
  backendAuthority : String
deriving DecidableEq, Repr

/-- The routing entries of a run: one for each proxy constructed (line 107),
with the key of the iteration and the scheme and host given to the proxy. -/
def Run.entries (r : Run) : List RoutingEntry :=
  r.trace.filterMap (fun x =>
    match x.2 with
    | Event.newProxy p => some ⟨x.1, p.target.Scheme, p.target.Host⟩
    | _ => none)

/-- The handler registrations of a run (line 125): key, pattern, handler. -/
def Run.handlers (r : Run) : List (String × String × Handler) :=
  r.trace.filterMap (fun x =>
    match x.2 with
    | Event.handleFunc pattern h => some (x.1, pattern, h)
    | _ => none)

/-- The HTTP listener starts of a run (line 145): key and address. -/
def Run.listeners (r : Run) : List (String × String) :=
  r.trace.filterMap (fun x =>
    match x.2 with
    | Event.listenAndServe addr => some (x.1, addr)
    | _ => none)

/-- The parsed target of a pair that passes the three guards of the loop body
(lines 78, 83, 88), `none` for every other pair. -/
def accepted (env : World) (flags : Flags) (host : String) (target : Value) : Option URL :=
  if HasPrefix host "#" then none
  else
    match target with
    | Value.nonString => none
    | Value.str s =>
      match env.Parse s with
      | Except.error _ => none
      | Except.ok u => if u.Scheme = "https" ∧ flags.httpsEnabled = false then none else some u

/-- The pairs that one of the three guards sends to `continue`. -/
def skipped (env : World) (flags : Flags) (host : String) (target : Value) : Bool :=
  if HasPrefix host "#" then true
  else
    match target with
    | Value.nonString => false
    | Value.str s =>
      match env.Parse s with
      | Except.error _ => true
      | Except.ok u => decide (u.Scheme = "https" ∧ flags.httpsEnabled = false)

/-- The events of one pass through the loop body. -/
def Step.events : Step → List Event
  | Step.next _ evs => evs
  | Step.stop _ evs _ => evs

/-! ## Lemmas on the loop -/

theorem bodyServe_ne_next (env : World) (flags : Flags) (mux mux1 : ServeMux)
    (ev0 evs : List Event) (u : URL) : bodyServe env flags mux ev0 u ≠ Step.next mux1 evs := by
  cases hH : mux.Handle "/" (registered (NewSingleHostReverseProxy
      { Scheme := u.Scheme, Host := u.Host })) with
  | error msg => simp [bodyServe, hH]
  | ok mux2 =>
    cases hL : env.ListenAndServe flags.httpAddress <;> simp [bodyServe, hH, hL]

theorem body_of_accepted (env : World) (flags : Flags) (mux : ServeMux) (host : String)
    (target : Value) (u : URL) (h : accepted env flags host target = some u) :
    body env flags mux host target = bodyServe env flags mux [Event.logTarget target] u := by
  unfold accepted at h
  unfold body
  by_cases hc : HasPrefix host "#" = true
  · simp [hc] at h
  · cases target with
    | nonString => simp [hc] at h
    | str s =>
      cases hp : env.Parse s with
      | error err => simp [hc, hp] at h
      | ok v =>
        by_cases hs : v.Scheme = "https" ∧ flags.httpsEnabled = false
        · simp [hc, hp, hs] at h
        · simp only [hc, hp, hs] at h
          simp only [Bool.false_eq_true, if_false, Option.some.injEq] at h
          subst h
          simp [hc, hp, hs]

theorem body_of_skipped (env : World) (flags : Flags) (mux : ServeMux) (host : String)
    (target : Value) (h : skipped env flags host target = true) :
    ∃ evs, body env flags mux host target = Step.next mux evs ∧ ∀ e ∈ evs, e.isLog = true := by
  unfold skipped at h
  unfold body
  by_cases hc : HasPrefix host "#" = true
  · exact ⟨[Event.logTarget target], by simp [hc], by simp [Event.isLog]⟩
  · cases target with
    | nonString => simp [hc] at h
    | str s =>
      cases hp : env.Parse s with
      | error err =>
        exact ⟨[Event.logTarget (Value.str s), Event.logError err], by simp [hc, hp],
          by simp [Event.isLog]⟩
      | ok v =>
        by_cases hs : v.Scheme = "https" ∧ flags.httpsEnabled = false
        · exact ⟨[Event.logTarget (Value.str s), Event.logHttpsDisabled], by simp [hc, hp, hs],
            by simp [Event.isLog]⟩
        · simp [hc, hp, hs] at h

theorem body_next (env : World) (flags : Flags) (mux mux1 : ServeMux) (host : String)
    (target : Value) (evs : List Event)
    (h : body env flags mux host target = Step.next mux1 evs) :
    mux1 = mux ∧ (∀ e ∈ evs, e.isLog = true) ∧ skipped env flags host target = true := by
  by_cases hk : skipped env flags host target = true
  · obtain ⟨evs1, h1, h2⟩ := body_of_skipped env flags mux host target hk
    rw [h1] at h
    simp only [Step.next.injEq] at h
    obtain ⟨rfl, rfl⟩ := h
    exact ⟨rfl, h2, hk⟩
  · exfalso
    unfold skipped at hk
    unfold body at h
    by_cases hc : HasPrefix host "#" = true
    · simp [hc] at hk
    · cases target with
      | nonString => simp [hc] at h
      | str s =>
        cases hp : env.Parse s with
        | error err => simp [hc, hp] at hk
        | ok v =>
          by_cases hs : v.Scheme = "https" ∧ flags.httpsEnabled = false
          · simp [hc, hp, hs] at hk
          · simp only [hc, hp, hs] at h
            simp only [Bool.false_eq_true, if_false] at h
            exact bodyServe_ne_next _ _ _ _ _ _ _ h

theorem rangeLoop_cons_next (env : World) (flags : Flags) (mux : ServeMux) (host : String)
    (target : Value) (rest : List (String × Value)) (evs : List Event)
    (h : body env flags mux host target = Step.next mux evs) :
    rangeLoop env flags mux ((host, target) :: rest) =
      ⟨evs.map (fun e => (host, e)) ++ (rangeLoop env flags mux rest).trace,
        (rangeLoop env flags mux rest).mux, (rangeLoop env flags mux rest).outcome⟩ := by
  simp [rangeLoop, h]

theorem rangeLoop_cons_stop (env : World) (flags : Flags) (mux mux1 : ServeMux) (host : String)
    (target : Value) (rest : List (String × Value)) (evs : List Event) (o : Outcome)
    (h : body env flags mux host target = Step.stop mux1 evs o) :
    rangeLoop env flags mux ((host, target) :: rest) = ⟨evs.map (fun e => (host, e)), mux1, o⟩ := by
  simp [rangeLoop, h]

theorem filter_map_log (host : String) (evs : List Event) (h : ∀ e ∈ evs, e.isLog = true) :
    (evs.map (fun e => (host, e))).filter (fun x => !x.2.isLog) = [] := by
  induction evs with
  | nil => rfl
  | cons e rest ih =>
    have he : e.isLog = true := h e (List.mem_cons_self _ _)
    have hr : ∀ e ∈ rest, e.isLog = true := fun x hx => h x (List.mem_cons_of_mem _ hx)
    simp [List.filter, he, ih hr]

/-- Erasing a skipped pair changes nothing but the log. -/
theorem rangeLoop_erase_skipped (env : World) (flags : Flags) (host : String) (target : Value)
    (after : List (String × Value)) (hk : skipped env flags host target = true) :
    ∀ (before : List (String × Value)) (mux : ServeMux),
      (rangeLoop env flags mux (before ++ (host, target) :: after)).effects =
          (rangeLoop env flags mux (before ++ after)).effects ∧
        (rangeLoop env flags mux (before ++ (host, target) :: after)).mux =
          (rangeLoop env flags mux (before ++ after)).mux ∧
        (rangeLoop env flags mux (before ++ (host, target) :: after)).outcome =
          (rangeLoop env flags mux (before ++ after)).outcome := by
  intro before
  induction before with
  | nil =>
    intro mux
    obtain ⟨evs, h1, h2⟩ := body_of_skipped env flags mux host target hk
    simp only [List.nil_append]
    rw [rangeLoop_cons_next env flags mux host target after evs h1]
    simp [Run.effects, List.filter_append, filter_map_log host evs h2]
  | cons x rest ih =>
    intro mux
    obtain ⟨k, t⟩ := x
    simp only [List.cons_append]
    cases hb : body env flags mux k t with
    | next mux1 evs =>
      obtain ⟨rfl, _, _⟩ := body_next env flags mux mux1 k t evs hb
      rw [rangeLoop_cons_next env flags mux1 k t _ evs hb,
        rangeLoop_cons_next env flags mux1 k t _ evs hb]
      obtain ⟨i1, i2, i3⟩ := ih mux1
      simp only [Run.effects, List.filter_append] at i1 ⊢
      exact ⟨by rw [i1], i2, i3⟩
    | stop mux1 evs o =>
      rw [rangeLoop_cons_stop env flags mux mux1 k t _ evs o hb,
        rangeLoop_cons_stop env flags mux mux1 k t _ evs o hb]
      exact ⟨rfl, rfl, rfl⟩

theorem filterMap_filter_of_none {α β : Type} (f : α → Option β) (p : α → Bool)
    (h : ∀ x, p x = false → f x = none) (l : List α) :
    (l.filter p).filterMap f = l.filterMap f := by
  induction l with
  | nil => rfl
  | cons a rest ih =>
    by_cases hp : p a = true
    · simp [List.filter, hp, List.filterMap_cons, ih]
    · have hp1 : p a = false := by simpa using hp
      simp [List.filter, hp1, List.filterMap_cons, h a hp1, ih]

theorem entries_of_effects (r : Run) :
    r.entries = r.effects.filterMap (fun x =>
      match x.2 with
      | Event.newProxy p => some ⟨x.1, p.target.Scheme, p.target.Host⟩
      | _ => none) := by
  unfold Run.entries Run.effects
  rw [filterMap_filter_of_none]
  intro x hx
  obtain ⟨k, e⟩ := x
  cases e <;> simp_all [Event.isLog]

theorem handlers_of_effects (r : Run) :
    r.handlers = r.effects.filterMap (fun x =>
      match x.2 with
      | Event.handleFunc pattern h => some (x.1, pattern, h)
      | _ => none) := by
  unfold Run.handlers Run.effects
  rw [filterMap_filter_of_none]
  intro x hx
  obtain ⟨k, e⟩ := x
  cases e <;> simp_all [Event.isLog]

theorem listeners_of_effects (r : Run) :
    r.listeners = r.effects.filterMap (fun x =>
      match x.2 with
      | Event.listenAndServe addr => some (x.1, addr)
      | _ => none) := by
  unfold Run.listeners Run.effects
  rw [filterMap_filter_of_none]
  intro x hx
  obtain ⟨k, e⟩ := x
  cases e <;> simp_all [Event.isLog]

/-- Every traced event comes from the body run on a pair of the mapping. -/
theorem trace_mem (env : World) (flags : Flags) (k : String) (ev : Event) :
    ∀ (proxies : List (String × Value)) (mux : ServeMux),
      (k, ev) ∈ (rangeLoop env flags mux proxies).trace →
      ∃ target, (k, target) ∈ proxies ∧ ev ∈ (body env flags mux k target).events := by
  intro proxies
  induction proxies with
  | nil => intro mux h; simp [rangeLoop] at h
  | cons x rest ih =>
    intro mux h
    obtain ⟨host, t⟩ := x
    cases hb : body env flags mux host t with
    | next mux1 evs =>
      obtain ⟨rfl, _, _⟩ := body_next env flags mux mux1 host t evs hb
      rw [rangeLoop_cons_next env flags mux1 host t _ evs hb] at h
      simp only [List.mem_append, List.mem_map, Prod.mk.injEq] at h
      rcases h with ⟨e, he, rfl, rfl⟩ | h
      · exact ⟨t, List.mem_cons_self _ _, by rw [hb]; exact he⟩
      · obtain ⟨target, h1, h2⟩ := ih mux1 h
        exact ⟨target, List.mem_cons_of_mem _ h1, h2⟩
    | stop mux1 evs o =>
      rw [rangeLoop_cons_stop env flags mux mux1 host t _ evs o hb] at h
      simp only [List.mem_map, Prod.mk.injEq] at h
      obtain ⟨e, he, rfl, rfl⟩ := h
      exact ⟨t, List.mem_cons_self _ _, by rw [hb]; exact he⟩

/-- A pair is skipped, or it makes the type assertion of line 82 panic, or it is accepted. -/
theorem pair_cases (env : World) (flags : Flags) (host : String) (target : Value) :
    skipped env flags host target = true ∨
      (HasPrefix host "#" = false ∧ target = Value.nonString) ∨
      ∃ u, accepted env flags host target = some u := by
  unfold skipped accepted
  by_cases hc : HasPrefix host "#" = true
  · simp [hc]
  · cases target with
    | nonString => simp [hc]
    | str s =>
      cases hp : env.Parse s with
      | error err => simp [hc, hp]
      | ok v =>
        by_cases hs : v.Scheme = "https" ∧ flags.httpsEnabled = false
        · simp [hc, hp, hs]
        · simp [hc, hp, hs]

theorem body_of_nonString (env : World) (flags : Flags) (mux : ServeMux) (host : String)
    (hc : HasPrefix host "#" = false) :
    body env flags mux host Value.nonString =
      Step.stop mux [Event.logTarget Value.nonString]
        (Outcome.panicked "interface conversion: interface \x7b\x7d is not string") := by
  simp [body, hc]

/-- The events of the accepted branch that are not log lines. -/
theorem bodyServe_events (env : World) (flags : Flags) (mux : ServeMux) (t : Value) (u : URL)
    (ev : Event) (h : ev ∈ (bodyServe env flags mux [Event.logTarget t] u).events)
    (hl : ev.isLog = false) :
    ev = Event.newProxy (NewSingleHostReverseProxy { Scheme := u.Scheme, Host := u.Host }) ∨
      ev = Event.handleFunc "/"
        (registered (NewSingleHostReverseProxy { Scheme := u.Scheme, Host := u.Host })) ∨
      ev = Event.goListenAndServeTLS flags.httpsAddress ∨
      ev = Event.listenAndServe flags.httpAddress := by
  cases hH : mux.Handle "/" (registered (NewSingleHostReverseProxy
      { Scheme := u.Scheme, Host := u.Host })) with
  | error msg =>
    simp only [bodyServe, hH, Step.events] at h
    simp only [List.cons_append, List.nil_append, List.mem_cons, List.mem_singleton,
      List.not_mem_nil, or_false] at h
    rcases h with rfl | rfl | rfl
    · simp [Event.isLog] at hl
    · simp [Event.isLog] at hl
    · exact Or.inl rfl
  | ok mux2 =>
    have key : ev ∈ ([Event.logTarget t, Event.printNewProxy u,
        Event.newProxy (NewSingleHostReverseProxy { Scheme := u.Scheme, Host := u.Host }),
        Event.handleFunc "/"
          (registered (NewSingleHostReverseProxy { Scheme := u.Scheme, Host := u.Host }))]
        ++ (if flags.httpsEnabled then [Event.goListenAndServeTLS flags.httpsAddress] else [])
        ++ [Event.logStartHTTP flags.httpAddress, Event.listenAndServe flags.httpAddress]) := by
      cases hL : env.ListenAndServe flags.httpAddress <;>
        simpa [bodyServe, hH, hL, Step.events] using h
    simp only [List.mem_append, List.mem_cons, List.mem_singleton, List.not_mem_nil,
      or_false] at key
    rcases key with ((rfl | rfl | rfl | rfl) | key) | (rfl | rfl)
    · simp [Event.isLog] at hl
    · simp [Event.isLog] at hl
    · exact Or.inl rfl
    · exact Or.inr (Or.inl rfl)
    · by_cases he : flags.httpsEnabled = true
      · simp [he] at key
        exact Or.inr (Or.inr (Or.inl key))
      · simp [he] at key
    · simp [Event.isLog] at hl
    · exact Or.inr (Or.inr (Or.inr rfl))

/-- An event of the body that is not a log line comes from an accepted pair. -/
theorem body_events_effect (env : World) (flags : Flags) (mux : ServeMux) (host : String)
    (target : Value) (ev : Event) (h : ev ∈ (body env flags mux host target).events)
    (hl : ev.isLog = false) :
    ∃ u, accepted env flags host target = some u ∧
      (ev = Event.newProxy (NewSingleHostReverseProxy { Scheme := u.Scheme, Host := u.Host }) ∨
        ev = Event.handleFunc "/"
          (registered (NewSingleHostReverseProxy { Scheme := u.Scheme, Host := u.Host })) ∨
        ev = Event.goListenAndServeTLS flags.httpsAddress ∨
        ev = Event.listenAndServe flags.httpAddress) := by
  rcases pair_cases env flags host target with hk | ⟨hc, rfl⟩ | ⟨u, hu⟩
  · obtain ⟨evs, h1, h2⟩ := body_of_skipped env flags mux host target hk
    rw [h1] at h
    have := h2 ev h
    simp [this] at hl
  · rw [body_of_nonString env flags mux host hc] at h
    simp only [Step.events, List.mem_singleton] at h
    subst h
    simp [Event.isLog] at hl
  · rw [body_of_accepted env flags mux host target u hu] at h
    exact ⟨u, hu, bodyServe_events env flags mux target u ev h hl⟩

theorem accepted_not_comment (env : World) (flags : Flags) (host : String) (target : Value)
    (u : URL) (h : accepted env flags host target = some u) : HasPrefix host "#" = false := by
  unfold accepted at h
  by_cases hc : HasPrefix host "#" = true
  · simp [hc] at h
  · simpa using hc

/-- A skipped pair: the body writes log lines only and the loop goes on with the
rest; erased from the mapping, it leaves the same effects, entries, handler
registrations, listener starts, mux and outcome. -/
theorem skipped_pair (env : World) (flags : Flags) (before after : List (String × Value))
    (host : String) (target : Value) (hk : skipped env flags host target = true) :
    (∀ mux : ServeMux, ∃ evs : List Event,
        (∀ e ∈ evs, e.isLog = true) ∧
        body env flags mux host target = Step.next mux evs ∧
        rangeLoop env flags mux ((host, target) :: after) =
          ⟨evs.map (fun e => (host, e)) ++ (rangeLoop env flags mux after).trace,
            (rangeLoop env flags mux after).mux, (rangeLoop env flags mux after).outcome⟩) ∧
      (main env flags (before ++ (host, target) :: after)).effects =
        (main env flags (before ++ after)).effects ∧
      (main env flags (before ++ (host, target) :: after)).entries =
        (main env flags (before ++ after)).entries ∧
      (main env flags (before ++ (host, target) :: after)).handlers =
        (main env flags (before ++ after)).handlers ∧
      (main env flags (before ++ (host, target) :: after)).listeners =
        (main env flags (before ++ after)).listeners ∧
      (main env flags (before ++ (host, target) :: after)).mux =
        (main env flags (before ++ after)).mux ∧
      (main env flags (before ++ (host, target) :: after)).outcome =
        (main env flags (before ++ after)).outcome := by
  obtain ⟨h1, h2, h3⟩ :=
    rangeLoop_erase_skipped env flags host target after hk before DefaultServeMux
  refine ⟨?_, h1, ?_, ?_, ?_, h2, h3⟩
  · intro mux
    obtain ⟨evs, e1, e2⟩ := body_of_skipped env flags mux host target hk
    exact ⟨evs, e2, e1, rangeLoop_cons_next env flags mux host target after evs e1⟩
  · rw [entries_of_effects, entries_of_effects]
    unfold main
    rw [h1]
  · rw [handlers_of_effects, handlers_of_effects]
    unfold main
    rw [h1]
  · rw [listeners_of_effects, listeners_of_effects]
    unfold main
    rw [h1]

/-- Skipped pairs in front of the rest leave the effects, mux and outcome of the rest. -/
theorem rangeLoop_skipped_prefix (env : World) (flags : Flags) (rest : List (String × Value)) :
    ∀ (before : List (String × Value)) (mux : ServeMux),
      (∀ x ∈ before, skipped env flags x.1 x.2 = true) →
      (rangeLoop env flags mux (before ++ rest)).effects = (rangeLoop env flags mux rest).effects ∧
        (rangeLoop env flags mux (before ++ rest)).mux = (rangeLoop env flags mux rest).mux ∧
        (rangeLoop env flags mux (before ++ rest)).outcome =
          (rangeLoop env flags mux rest).outcome := by
  intro before
  induction before with
  | nil => intro mux _; exact ⟨rfl, rfl, rfl⟩
  | cons x tl ih =>
    intro mux hb
    obtain ⟨k, t⟩ := x
    have hk : skipped env flags k t = true := hb (k, t) (List.mem_cons_self _ _)
    have htl : ∀ x ∈ tl, skipped env flags x.1 x.2 = true :=
      fun x hx => hb x (List.mem_cons_of_mem _ hx)
    obtain ⟨evs, e1, e2⟩ := body_of_skipped env flags mux k t hk
    simp only [List.cons_append]
    rw [rangeLoop_cons_next env flags mux k t _ evs e1]
    obtain ⟨i1, i2, i3⟩ := ih mux htl
    refine ⟨?_, i2, i3⟩
    simp only [Run.effects, List.filter_append, filter_map_log k evs e2, List.nil_append] at i1 ⊢
    exact i1

/-- Once the body stops at a pair, what follows the pair is never looked at. -/
theorem rangeLoop_stop_rest (env : World) (flags : Flags) (host : String) (target : Value)
    (after after1 : List (String × Value))
    (hs : ∀ mux mux1 evs, body env flags mux host target ≠ Step.next mux1 evs) :
    ∀ (before : List (String × Value)) (mux : ServeMux),
      rangeLoop env flags mux (before ++ (host, target) :: after) =
        rangeLoop env flags mux (before ++ (host, target) :: after1) := by
  intro before
  induction before with
  | nil =>
    intro mux
    simp only [List.nil_append]
    cases hb : body env flags mux host target with
    | next mux1 evs => exact absurd hb (hs mux mux1 evs)
    | stop mux1 evs o =>
      rw [rangeLoop_cons_stop env flags mux mux1 host target _ evs o hb,
        rangeLoop_cons_stop env flags mux mux1 host target _ evs o hb]
  | cons x tl ih =>
    intro mux
    obtain ⟨k, t⟩ := x
    simp only [List.cons_append]
    cases hb : body env flags mux k t with
    | next mux1 evs =>
      obtain ⟨rfl, _, _⟩ := body_next env flags mux mux1 k t evs hb
      rw [rangeLoop_cons_next env flags mux1 k t _ evs hb,
        rangeLoop_cons_next env flags mux1 k t _ evs hb, ih mux1]
    | stop mux1 evs o =>
      rw [rangeLoop_cons_stop env flags mux mux1 k t _ evs o hb,
        rangeLoop_cons_stop env flags mux mux1 k t _ evs o hb]

theorem skipped_of_accepted (env : World) (flags : Flags) (host : String) (target : Value)
    (u : URL) (h : accepted env flags host target = some u) :
    skipped env flags host target = false := by
  unfold accepted at h
  unfold skipped
  by_cases hc : HasPrefix host "#" = true
  · simp [hc] at h
  · cases target with
    | nonString => simp [hc]
    | str s =>
      cases hp : env.Parse s with
      | error err => simp [hc, hp] at h
      | ok v =>
        by_cases hs : v.Scheme = "https" ∧ flags.httpsEnabled = false
        · simp [hc, hp, hs] at h
        · simp [hc, hp, hs]

theorem handle_default (h : Handler) :
    DefaultServeMux.Handle "/" h =
      Except.ok { m := [("/", h)], es := [("/", h)], hosts := false } := by
  rfl

/-- The accepted branch from the empty default mux. -/
theorem bodyServe_default (env : World) (flags : Flags) (ev0 : List Event) (u : URL) :
    ∃ o, bodyServe env flags DefaultServeMux ev0 u =
      Step.stop
        { m := [("/", registered (NewSingleHostReverseProxy { Scheme := u.Scheme, Host := u.Host }))]
          es := [("/", registered (NewSingleHostReverseProxy { Scheme := u.Scheme, Host := u.Host }))]
          hosts := false }
        (ev0 ++ [Event.printNewProxy u,
            Event.newProxy (NewSingleHostReverseProxy { Scheme := u.Scheme, Host := u.Host }),
            Event.handleFunc "/"
              (registered (NewSingleHostReverseProxy { Scheme := u.Scheme, Host := u.Host }))]
          ++ (if flags.httpsEnabled then [Event.goListenAndServeTLS flags.httpsAddress] else [])
          ++ [Event.logStartHTTP flags.httpAddress, Event.listenAndServe flags.httpAddress]) o ∧
      ((env.ListenAndServe flags.httpAddress = none ∧ o = Outcome.serving) ∨
        ∃ err, env.ListenAndServe flags.httpAddress = some err ∧ o = Outcome.fatal err) := by
  cases hL : env.ListenAndServe flags.httpAddress with
  | none =>
    exact ⟨Outcome.serving, by simp [bodyServe, handle_default, hL], Or.inl ⟨rfl, rfl⟩⟩
  | some err =>
    exact ⟨Outcome.fatal err, by simp [bodyServe, handle_default, hL], Or.inr ⟨err, rfl, rfl⟩⟩

/-- The run up to and including the first accepted pair. -/
theorem main_first_accepted (env : World) (flags : Flags) (before after : List (String × Value))
    (host : String) (target : Value) (u : URL)
    (hb : ∀ x ∈ before, skipped env flags x.1 x.2 = true)
    (ha : accepted env flags host target = some u) :
    (main env flags (before ++ (host, target) :: after)).effects =
        [(host, Event.newProxy (NewSingleHostReverseProxy { Scheme := u.Scheme, Host := u.Host })),
          (host, Event.handleFunc "/"
            (registered (NewSingleHostReverseProxy { Scheme := u.Scheme, Host := u.Host })))]
        ++ (if flags.httpsEnabled then [(host, Event.goListenAndServeTLS flags.httpsAddress)]
            else [])
        ++ [(host, Event.listenAndServe flags.httpAddress)] ∧
      (main env flags (before ++ (host, target) :: after)).mux =
        { m := [("/", registered (NewSingleHostReverseProxy { Scheme := u.Scheme, Host := u.Host }))]
          es := [("/", registered (NewSingleHostReverseProxy { Scheme := u.Scheme, Host := u.Host }))]
          hosts := false } ∧
      ((env.ListenAndServe flags.httpAddress = none ∧
          (main env flags (before ++ (host, target) :: after)).outcome = Outcome.serving) ∨
        ∃ err, env.ListenAndServe flags.httpAddress = some err ∧
          (main env flags (before ++ (host, target) :: after)).outcome = Outcome.fatal err) := by
  obtain ⟨i1, i2, i3⟩ :=
    rangeLoop_skipped_prefix env flags ((host, target) :: after) before DefaultServeMux hb
  obtain ⟨o, ho, hcase⟩ := bodyServe_default env flags [Event.logTarget target] u
  have hbody := body_of_accepted env flags DefaultServeMux host target u ha
  rw [ho] at hbody
  have hr := rangeLoop_cons_stop env flags DefaultServeMux _ host target after _ o hbody
  unfold main
  rw [i1, i2, i3, hr]
  refine ⟨?_, rfl, ?_⟩
  · by_cases he : flags.httpsEnabled = true <;>
      simp [Run.effects, List.filter, Event.isLog, he]
  · rcases hcase with ⟨h1, rfl⟩ | ⟨err, h1, rfl⟩
    · exact Or.inl ⟨h1, rfl⟩
    · exact Or.inr ⟨err, h1, rfl⟩

/-- The run over a mapping whose pairs are all skipped. -/
theorem main_all_skipped (env : World) (flags : Flags) (proxies : List (String × Value))
    (hb : ∀ x ∈ proxies, skipped env flags x.1 x.2 = true) :
    (main env flags proxies).effects = [] ∧ (main env flags proxies).mux = DefaultServeMux ∧
      (main env flags proxies).outcome = Outcome.returned := by
  have h := rangeLoop_skipped_prefix env flags [] proxies DefaultServeMux hb
  simp only [List.append_nil] at h
  unfold main
  obtain ⟨i1, i2, i3⟩ := h
  rw [i1, i2, i3]
  exact ⟨rfl, rfl, rfl⟩

/-- The run that meets a value that is no string before any accepted pair. -/
theorem main_first_nonString (env : World) (flags : Flags)
    (before after : List (String × Value)) (host : String)
    (hb : ∀ x ∈ before, skipped env flags x.1 x.2 = true) (hc : HasPrefix host "#" = false) :
    (main env flags (before ++ (host, Value.nonString) :: after)).effects = [] ∧
      (main env flags (before ++ (host, Value.nonString) :: after)).mux = DefaultServeMux ∧
      (main env flags (before ++ (host, Value.nonString) :: after)).outcome =
        Outcome.panicked "interface conversion: interface \x7b\x7d is not string" := by
  obtain ⟨i1, i2, i3⟩ :=
    rangeLoop_skipped_prefix env flags ((host, Value.nonString) :: after) before
      DefaultServeMux hb
  have hr := rangeLoop_cons_stop env flags DefaultServeMux _ host Value.nonString after _ _
    (body_of_nonString env flags DefaultServeMux host hc)
  unfold main
  rw [i1, i2, i3, hr]
  exact ⟨rfl, rfl, rfl⟩

/-- Every mapping, in every order, is all skipped pairs or has a first pair that is not. -/
theorem proxies_cases (env : World) (flags : Flags) (proxies : List (String × Value)) :
    (∀ x ∈ proxies, skipped env flags x.1 x.2 = true) ∨
      ∃ before host target after,
        proxies = before ++ (host, target) :: after ∧
        (∀ x ∈ before, skipped env flags x.1 x.2 = true) ∧
        ((HasPrefix host "#" = false ∧ target = Value.nonString) ∨
          ∃ u, accepted env flags host target = some u) := by
  induction proxies with
  | nil => exact Or.inl (by simp)
  | cons x tl ih =>
    obtain ⟨k, t⟩ := x
    rcases pair_cases env flags k t with hk | hns | hacc
    · rcases ih with hall | ⟨before, host, target, after, h1, h2, h3⟩
      · left
        intro y hy
        rcases List.mem_cons.mp hy with rfl | hy
        · exact hk
        · exact hall y hy
      · right
        refine ⟨(k, t) :: before, host, target, after, by simp [h1], ?_, h3⟩
        intro y hy
        rcases List.mem_cons.mp hy with rfl | hy
        · exact hk
        · exact h2 y hy
    · exact Or.inr ⟨[], k, t, tl, rfl, by simp, Or.inl hns⟩
    · exact Or.inr ⟨[], k, t, tl, rfl, by simp, Or.inr hacc⟩

theorem handler_default (host path : String) :
    DefaultServeMux.handler host path = (Handler.notFound, "") := by
  rfl

/-- The lookup in a mux that holds one handler, on the pattern `/`. -/
theorem handler_single (h : Handler) (host path : String) :
    ({ m := [("/", h)], es := [("/", h)], hosts := false } : ServeMux).handler host path =
      if HasPrefix path "/" then (h, "/") else (Handler.notFound, "") := by
  by_cases hp : "/" = path
  · subst hp
    rfl
  · by_cases hx : HasPrefix path "/" = true
    · simp [ServeMux.handler, ServeMux.match, ServeMux.lookup, hp, hx, List.find?]
    · simp [ServeMux.handler, ServeMux.match, ServeMux.lookup, hp, hx, List.find?]

theorem singleJoiningSlash_empty (b : String) (hb : HasPrefix b "/" = true) :
    singleJoiningSlash "" b = b := by
  have h0 : HasSuffix "" "/" = false := by decide
  simp [singleJoiningSlash, h0, hb]

/-- The entries, handler registrations and listener starts of the run up to the
first accepted pair. -/
theorem main_first_accepted_lists (env : World) (flags : Flags)
    (before after : List (String × Value)) (host : String) (target : Value) (u : URL)
    (hb : ∀ x ∈ before, skipped env flags x.1 x.2 = true)
    (ha : accepted env flags host target = some u) :
    (main env flags (before ++ (host, target) :: after)).entries = [⟨host, u.Scheme, u.Host⟩] ∧
      (main env flags (before ++ (host, target) :: after)).handlers =
        [(host, "/", registered (NewSingleHostReverseProxy
          { Scheme := u.Scheme, Host := u.Host }))] ∧
      (main env flags (before ++ (host, target) :: after)).listeners =
        [(host, flags.httpAddress)] := by
  obtain ⟨h1, _, _⟩ := main_first_accepted env flags before after host target u hb ha
  rw [entries_of_effects, handlers_of_effects, listeners_of_effects, h1]
  by_cases he : flags.httpsEnabled = true <;> simp [he, NewSingleHostReverseProxy]

theorem mem_split_pair (before after : List (String × Value)) (host : String) (target : Value) :
    (host, target) ∈ before ++ (host, target) :: after := by
  simp

theorem accepted_spec (env : World) (flags : Flags) (host : String) (target : Value) (u : URL)
    (h : accepted env flags host target = some u) :
    HasPrefix host "#" = false ∧
      ∃ s, target = Value.str s ∧ env.Parse s = Except.ok u ∧
        ¬ (u.Scheme = "https" ∧ flags.httpsEnabled = false) := by
  unfold accepted at h
  by_cases hc : HasPrefix host "#" = true
  · simp [hc] at h
  · cases target with
    | nonString => simp [hc] at h
    | str s =>
      cases hp : env.Parse s with
      | error err => simp [hc, hp] at h
      | ok v =>
        by_cases hs : v.Scheme = "https" ∧ flags.httpsEnabled = false
        · simp [hc, hp, hs] at h
        · simp only [hc, hp, hs] at h
          simp only [Bool.false_eq_true, if_false, Option.some.injEq] at h
          subst h
          exact ⟨by simpa using hc, s, rfl, hp, hs⟩

/-- The trace of a run over skipped pairs in front of the rest ends with the trace of the rest. -/
theorem rangeLoop_skipped_prefix_trace (env : World) (flags : Flags)
    (rest : List (String × Value)) :
    ∀ (before : List (String × Value)) (mux : ServeMux),
      (∀ x ∈ before, skipped env flags x.1 x.2 = true) →
      ∃ logs, (rangeLoop env flags mux (before ++ rest)).trace =
        logs ++ (rangeLoop env flags mux rest).trace := by
  intro before
  induction before with
  | nil => intro mux _; exact ⟨[], rfl⟩
  | cons x tl ih =>
    intro mux hb
    obtain ⟨k, t⟩ := x
    have hk : skipped env flags k t = true := hb (k, t) (List.mem_cons_self _ _)
    have htl : ∀ x ∈ tl, skipped env flags x.1 x.2 = true :=
      fun x hx => hb x (List.mem_cons_of_mem _ hx)
    obtain ⟨evs, e1, _⟩ := body_of_skipped env flags mux k t hk
    obtain ⟨logs, hl⟩ := ih mux htl
    simp only [List.cons_append]
    rw [rangeLoop_cons_next env flags mux k t _ evs e1]
    exact ⟨evs.map (fun e => (k, e)) ++ logs, by simp [hl]⟩

/-- The call of ListenAndServe is the last event of a run that accepts a pair. -/
theorem main_first_accepted_last (env : World) (flags : Flags)
    (before after : List (String × Value)) (host : String) (target : Value) (u : URL)
    (hb : ∀ x ∈ before, skipped env flags x.1 x.2 = true)
    (ha : accepted env flags host target = some u) :
    ∃ pre, (main env flags (before ++ (host, target) :: after)).trace =
      pre ++ [(host, Event.listenAndServe flags.httpAddress)] := by
  obtain ⟨logs, hl⟩ :=
    rangeLoop_skipped_prefix_trace env flags ((host, target) :: after) before DefaultServeMux hb
  obtain ⟨o, ho, _⟩ := bodyServe_default env flags [Event.logTarget target] u
  have hbody := body_of_accepted env flags DefaultServeMux host target u ha
  rw [ho] at hbody
  have hr := rangeLoop_cons_stop env flags DefaultServeMux _ host target after _ o hbody
  unfold main
  rw [hl, hr]
  refine ⟨logs ++ (([Event.logTarget target] ++ [Event.printNewProxy u,
      Event.newProxy (NewSingleHostReverseProxy { Scheme := u.Scheme, Host := u.Host }),
      Event.handleFunc "/"
        (registered (NewSingleHostReverseProxy { Scheme := u.Scheme, Host := u.Host }))]
      ++ (if flags.httpsEnabled then [Event.goListenAndServeTLS flags.httpsAddress] else [])
      ++ [Event.logStartHTTP flags.httpAddress]).map (fun e => (host, e))), ?_⟩
  simp

theorem accepted_ne_next (env : World) (flags : Flags) (host : String) (target : Value)
    (u : URL) (ha : accepted env flags host target = some u) :
    ∀ mux mux1 evs, body env flags mux host target ≠ Step.next mux1 evs := by
  intro mux mux1 evs hb
  obtain ⟨_, _, hk⟩ := body_next env flags mux mux1 host target evs hb
  rw [skipped_of_accepted env flags host target u ha] at hk
  exact Bool.false_ne_true hk

theorem handle_registered (mux : ServeMux) (h1 h2 : Handler)
    (h : ServeMux.lookup mux.m "/" = some h1) :
    mux.Handle "/" h2 = Except.error "http: multiple registrations for /" := by
  have h0 : ("/" : String) ≠ "" := by decide
  simp only [ServeMux.Handle, h0, if_false, h, Option.isSome_some, if_true]
  rfl

theorem backtrack_rooted : ∀ xs : List Char, xs ≠ [] →
    ∃ ys, backtrack 1 (xs ++ ['/']) = ys ++ ['/'] := by
  intro xs
  induction xs with
  | nil => intro h; exact absurd rfl h
  | cons c tl ih =>
    intro _
    have e : backtrack 1 (c :: (tl ++ ['/'])) =
        if ((tl ++ ['/']).length > 1 && c != '/') = true then backtrack 1 (tl ++ ['/'])
        else tl ++ ['/'] := rfl
    rw [List.cons_append, e]
    by_cases hc : ((tl ++ ['/']).length > 1 && c != '/') = true
    · rw [if_pos hc]
      have hl : tl ≠ [] := by
        intro h0
        subst h0
        simp at hc
      exact ih hl
    · rw [if_neg hc]
      exact ⟨tl, rfl⟩

theorem cleanStep_rooted (st : List Char × Nat) (e : List Char)
    (h1 : ∃ xs, st.1 = xs ++ ['/']) (h2 : st.2 = 1) :
    (∃ xs, (cleanStep true st e).1 = xs ++ ['/']) ∧ (cleanStep true st e).2 = 1 := by
  obtain ⟨xs, hx⟩ := h1
  unfold cleanStep
  by_cases he1 : e = []
  · simp only [he1, if_true]
    exact ⟨⟨xs, hx⟩, h2⟩
  · by_cases he2 : e = ['.']
    · simp only [he1, he2, if_true, if_false]
      exact ⟨⟨xs, hx⟩, h2⟩
    · by_cases he3 : e = ['.', '.']
      · simp only [he1, he2, he3, if_true, if_false]
        by_cases hl : st.1.length > st.2
        · simp only [hl, if_true]
          refine ⟨?_, h2⟩
          rw [h2, hx]
          apply backtrack_rooted
          intro h0
          subst h0
          rw [hx, h2] at hl
          simp at hl
        · simp only [hl, if_false, if_true]
          exact ⟨⟨xs, hx⟩, h2⟩
      · simp only [he1, he2, he3, if_false]
        refine ⟨?_, h2⟩
        by_cases hc : ((true && st.1.length != 1) || (!true && st.1.length != 0)) = true
        · rw [if_pos hc]
          exact ⟨e.reverse ++ '/' :: xs, by simp [hx]⟩
        · rw [if_neg hc]
          exact ⟨e.reverse ++ xs, by simp [hx]⟩

theorem foldl_cleanStep_rooted (es : List (List Char)) :
    ∀ st : List Char × Nat, (∃ xs, st.1 = xs ++ ['/']) → st.2 = 1 →
      ∃ xs, (es.foldl (cleanStep true) st).1 = xs ++ ['/'] := by
  induction es with
  | nil => intro st h1 _; exact h1
  | cons e tl ih =>
    intro st h1 h2
    obtain ⟨i1, i2⟩ := cleanStep_rooted st e h1 h2
    exact ih _ i1 i2

theorem Clean_rooted (t : List Char) : ∃ r, Clean ('/' :: t) = '/' :: r := by
  obtain ⟨xs, hx⟩ := foldl_cleanStep_rooted (pathElements t) (['/'], 1) ⟨[], rfl⟩ rfl
  refine ⟨xs.reverse, ?_⟩
  simp [Clean, hx]

/-- The cleaned path begins with a slash. -/
theorem cleanPath_prefix (p : String) : HasPrefix (cleanPath p) "/" = true := by
  unfold cleanPath
  by_cases h0 : p = ""
  · simp [h0]; rfl
  · simp only [h0, if_false]
    have key : ∃ t, (if p.data.head? = some '/' then p.data else '/' :: p.data) = '/' :: t := by
      by_cases hh : p.data.head? = some '/'
      · rw [if_pos hh]
        cases hd : p.data with
        | nil => rw [hd] at hh; simp at hh
        | cons c tl =>
          rw [hd] at hh
          simp at hh
          exact ⟨tl, by rw [hh]⟩
      · rw [if_neg hh]
        exact ⟨p.data, rfl⟩
    obtain ⟨t, ht⟩ := key
    rw [ht]
    obtain ⟨r, hr⟩ := Clean_rooted t
    rw [hr]
    split
    · split
      · simp [HasPrefix, List.isPrefixOf]
      · simp [HasPrefix, List.isPrefixOf]
    · simp [HasPrefix, List.isPrefixOf]

theorem append_slash_data (c : String) (h : "/" = c ++ "/") : c.data = [] := by
  have h1 := congrArg String.data h
  rw [String.data_append] at h1
  have h2 : c.data ++ ['/'] = [] ++ ['/'] := h1.symm
  exact List.append_cancel_right h2

/-- A mux that holds the pattern `/` only never redirects to a path with a slash added. -/
theorem shouldRedirect_single (h : Handler) (host path : String) :
    ({ m := [("/", h)], es := [("/", h)], hosts := false } : ServeMux).shouldRedirectRLocked
      host path = false := by
  unfold ServeMux.shouldRedirectRLocked
  by_cases h1 : (ServeMux.lookup [("/", h)] path).isSome ||
      (ServeMux.lookup [("/", h)] (host ++ path)).isSome
  · simp only [h1, if_true]
  · simp only [h1]
    by_cases h2 : path.data.length = 0
    · simp [h2]
    · have h3 : ¬ ("/" = path ++ "/") := by
        intro hc
        exact h2 (by rw [append_slash_data path hc]; rfl)
      have h4 : ¬ ("/" = host ++ path ++ "/") := by
        intro hc
        have hd := append_slash_data (host ++ path) hc
        rw [String.data_append] at hd
        have : path.data = [] := (List.append_eq_nil.mp hd).2
        exact h2 (by rw [this]; rfl)
      simp [h2, ServeMux.lookup, h3, h4]

/-- The mux that holds one handler, on the pattern `/`, serving a request. -/
theorem serveHTTP_single (h : Handler) (w : Header) (r : Request) :
    ({ m := [("/", h)], es := [("/", h)], hosts := false } : ServeMux).ServeHTTP w r =
      if r.RequestURI = "*" then Served.badRequest
      else if r.Method = "CONNECT" then
        (if HasPrefix r.URL.Path "/" then h.ServeHTTP w r else Served.notFound)
      else if cleanPath r.URL.Path = r.URL.Path then h.ServeHTTP w r
      else Served.redirect { r.URL with Path := cleanPath r.URL.Path } := by
  unfold ServeMux.ServeHTTP
  by_cases hu : r.RequestURI = "*"
  · simp [hu]
  · simp only [hu, if_false]
    unfold ServeMux.Handler ServeMux.redirectToPathSlash
    simp only [shouldRedirect_single, Bool.false_eq_true, if_false]
    by_cases hm : r.Method = "CONNECT"
    · simp only [hm, if_true]
      rw [handler_single]
      by_cases hp : HasPrefix r.URL.Path "/" = true
      · simp [hp]
      · simp [hp, Handler.ServeHTTP]
    · simp only [hm, if_false]
      by_cases hc : cleanPath r.URL.Path = r.URL.Path
      · have hp : HasPrefix r.URL.Path "/" = true := by
          rw [← hc]
          exact cleanPath_prefix _
        simp only [hc, ne_eq, not_true_eq_false, if_false, if_true]
        rw [handler_single]
        simp [hp]
      · simp [hc, Handler.ServeHTTP]

/-- Every hand-over to a proxy that the mux makes is one of the handler that
the lookup returns at the path of the request. -/
theorem serveHTTP_proxied_lookup (mux : ServeMux) (w w1 : Header) (r r1 : Request)
    (p : ReverseProxy) (h : mux.ServeHTTP w r = Served.proxied p w1 r1) :
    ∃ host, (mux.handler host r.URL.Path).1.ServeHTTP w r = Served.proxied p w1 r1 := by
  unfold ServeMux.ServeHTTP at h
  by_cases hu : r.RequestURI = "*"
  · simp [hu] at h
  · simp only [hu, if_false] at h
    unfold ServeMux.Handler at h
    by_cases hm : r.Method = "CONNECT"
    · simp only [hm, if_true] at h
      cases hr : mux.redirectToPathSlash r.URL.Host r.URL.Path r.URL with
      | some u => simp [hr, Handler.ServeHTTP] at h
      | none =>
        simp only [hr] at h
        exact ⟨r.Host, h⟩
    · simp only [hm, if_false] at h
      cases hr : mux.redirectToPathSlash (stripHostPort r.Host) (cleanPath r.URL.Path) r.URL with
      | some u => simp [hr, Handler.ServeHTTP] at h
      | none =>
        simp only [hr] at h
        by_cases hc : cleanPath r.URL.Path = r.URL.Path
        · simp only [hc, ne_eq, not_true_eq_false, if_false] at h
          exact ⟨stripHostPort r.Host, h⟩
        · simp [hc, Handler.ServeHTTP] at h

/-! ## The claims -/

/-- C1: a key that begins with `#` yields no routing entry.  The body of the
loop, whatever the target value, the flags and the mux, only writes the log
line of line 77 and continues; and in a run over any mapping every event of an
iteration of that key is a log line, no routing entry carries the key and no
handler registration or listener start belongs to it. -/
theorem comment_key_no_entry (env : World) (flags : Flags) (proxies : List (String × Value))
    (host : String) (h : HasPrefix host "#" = true) :
    (∀ (mux : ServeMux) (target : Value),
        body env flags mux host target = Step.next mux [Event.logTarget target]) ∧
      (∀ ev, (host, ev) ∈ (main env flags proxies).trace → ev.isLog = true) ∧
      (∀ e ∈ (main env flags proxies).entries, e.hostPattern ≠ host) ∧
      (∀ x ∈ (main env flags proxies).handlers, x.1 ≠ host) ∧
      (∀ x ∈ (main env flags proxies).listeners, x.1 ≠ host) := by
  have hev : ∀ ev, (host, ev) ∈ (main env flags proxies).trace → ev.isLog = true := by
    intro ev hm
    obtain ⟨target, _, h2⟩ := trace_mem env flags host ev proxies DefaultServeMux hm
    by_contra hl
    have hl1 : ev.isLog = false := by simpa using hl
    obtain ⟨u, hu, _⟩ := body_events_effect env flags DefaultServeMux host target ev h2 hl1
    have := accepted_not_comment env flags host target u hu
    simp [h] at this
  refine ⟨fun mux target => by simp [body, h], hev, ?_, ?_, ?_⟩
  · intro e he heq
    simp only [Run.entries, List.mem_filterMap] at he
    obtain ⟨⟨k, ev⟩, hm, hx⟩ := he
    cases ev <;> simp at hx
    subst hx
    simp only at heq
    subst heq
    have := hev _ hm
    simp [Event.isLog] at this
  · intro x hx heq
    simp only [Run.handlers, List.mem_filterMap] at hx
    obtain ⟨⟨k, ev⟩, hm, hx⟩ := hx
    cases ev <;> simp at hx
    subst hx
    simp only at heq
    subst heq
    have := hev _ hm
    simp [Event.isLog] at this
  · intro x hx heq
    simp only [Run.listeners, List.mem_filterMap] at hx
    obtain ⟨⟨k, ev⟩, hm, hx⟩ := hx
    cases ev <;> simp at hx
    subst hx
    simp only at heq
    subst heq
    have := hev _ hm
    simp [Event.isLog] at this

theorem comment_key_no_entry_witness :
    HasPrefix "#disabled.example.com" "#" = true ∧
      body (goWorld none) {} DefaultServeMux "#disabled.example.com"
          (Value.str "http://127.0.0.1:9002") =
        Step.next DefaultServeMux [Event.logTarget (Value.str "http://127.0.0.1:9002")] :=
  ⟨by decide,
    (comment_key_no_entry (goWorld none) {}
      [("api.example.com", Value.str "http://127.0.0.1:9001"),
        ("#disabled.example.com", Value.str "http://127.0.0.1:9002")]
      "#disabled.example.com" (by decide)).1 DefaultServeMux _⟩

/-- C2: a target that parses with scheme `https` is skipped when HTTPS is not
enabled.  The body writes log lines only (for a key that is no comment: the
line of line 77 and the warning of line 89), leaves the mux as it was and
continues, so the loop goes on with the remaining entries; and the run over a
mapping that holds the pair has the same proxies, handler registrations,
listener starts, mux and outcome as the run over the mapping without it. -/
theorem https_target_skipped (env : World) (flags : Flags)
    (before after : List (String × Value)) (host s : String) (u : URL)
    (hd : flags.httpsEnabled = false) (hp : env.Parse s = Except.ok u)
    (hs : u.Scheme = "https") :
    (∀ mux : ServeMux, HasPrefix host "#" = false →
        body env flags mux host (Value.str s) =
          Step.next mux [Event.logTarget (Value.str s), Event.logHttpsDisabled]) ∧
      (∀ mux : ServeMux, ∃ evs : List Event,
        (∀ e ∈ evs, e.isLog = true) ∧
        body env flags mux host (Value.str s) = Step.next mux evs ∧
        rangeLoop env flags mux ((host, Value.str s) :: after) =
          ⟨evs.map (fun e => (host, e)) ++ (rangeLoop env flags mux after).trace,
            (rangeLoop env flags mux after).mux, (rangeLoop env flags mux after).outcome⟩) ∧
      (main env flags (before ++ (host, Value.str s) :: after)).effects =
        (main env flags (before ++ after)).effects ∧
      (main env flags (before ++ (host, Value.str s) :: after)).entries =
        (main env flags (before ++ after)).entries ∧
      (main env flags (before ++ (host, Value.str s) :: after)).handlers =
        (main env flags (before ++ after)).handlers ∧
      (main env flags (before ++ (host, Value.str s) :: after)).listeners =
        (main env flags (before ++ after)).listeners ∧
      (main env flags (before ++ (host, Value.str s) :: after)).mux =
        (main env flags (before ++ after)).mux ∧
      (main env flags (before ++ (host, Value.str s) :: after)).outcome =
        (main env flags (before ++ after)).outcome := by
  have hk : skipped env flags host (Value.str s) = true := by
    unfold skipped
    by_cases hc : HasPrefix host "#" = true
    · simp [hc]
    · simp [hc, hp, hs, hd]
  refine ⟨?_, skipped_pair env flags before after host (Value.str s) hk⟩
  intro mux hc
  simp [body, hc, hp, hs, hd]

theorem https_target_skipped_witness :
    ({} : Flags).httpsEnabled = false ∧
      Parse "https://127.0.0.1:9443" = Except.ok { Scheme := "https", Host := "127.0.0.1:9443" } ∧
      (main (goWorld none) {}
          ([] ++ ("secure.example.com", Value.str "https://127.0.0.1:9443") ::
            [("api.example.com", Value.str "http://127.0.0.1:9001")])).entries =
        (main (goWorld none) {}
          ([] ++ [("api.example.com", Value.str "http://127.0.0.1:9001")])).entries :=
  ⟨rfl, rfl,
    (https_target_skipped (goWorld none) {} []
      [("api.example.com", Value.str "http://127.0.0.1:9001")] "secure.example.com"
      "https://127.0.0.1:9443" { Scheme := "https", Host := "127.0.0.1:9443" } rfl rfl rfl).2.2.2.1⟩

/-- C3: a target that fails URL parsing is skipped without aborting.  The body
writes log lines only (for a key that is no comment: the line of line 77 and
the logged error), leaves the mux as it was and continues; and the routing
entries of the run over a mapping that holds the pair are those of the run over
the mapping with the pair removed, as are the handler registrations, listener
starts, mux and outcome. -/
theorem unparsable_target_skipped (env : World) (flags : Flags)
    (before after : List (String × Value)) (host s err : String)
    (hp : env.Parse s = Except.error err) :
    (∀ mux : ServeMux, HasPrefix host "#" = false →
        body env flags mux host (Value.str s) =
          Step.next mux [Event.logTarget (Value.str s), Event.logError err]) ∧
      (∀ mux : ServeMux, ∃ evs : List Event,
        (∀ e ∈ evs, e.isLog = true) ∧
        body env flags mux host (Value.str s) = Step.next mux evs ∧
        rangeLoop env flags mux ((host, Value.str s) :: after) =
          ⟨evs.map (fun e => (host, e)) ++ (rangeLoop env flags mux after).trace,
            (rangeLoop env flags mux after).mux, (rangeLoop env flags mux after).outcome⟩) ∧
      (main env flags (before ++ (host, Value.str s) :: after)).effects =
        (main env flags (before ++ after)).effects ∧
      (main env flags (before ++ (host, Value.str s) :: after)).entries =
        (main env flags (before ++ after)).entries ∧
      (main env flags (before ++ (host, Value.str s) :: after)).handlers =
        (main env flags (before ++ after)).handlers ∧
      (main env flags (before ++ (host, Value.str s) :: after)).listeners =
        (main env flags (before ++ after)).listeners ∧
      (main env flags (before ++ (host, Value.str s) :: after)).mux =
        (main env flags (before ++ after)).mux ∧
      (main env flags (before ++ (host, Value.str s) :: after)).outcome =
        (main env flags (before ++ after)).outcome := by
  have hk : skipped env flags host (Value.str s) = true := by
    unfold skipped
    by_cases hc : HasPrefix host "#" = true
    · simp [hc]
    · simp [hc, hp]
  refine ⟨?_, skipped_pair env flags before after host (Value.str s) hk⟩
  intro mux hc
  simp [body, hc, hp]

theorem unparsable_target_skipped_witness :
    Parse "://127.0.0.1:9001" = Except.error "parse: missing protocol scheme" ∧
      (main (goWorld none) {}
          ([] ++ ("bad.example.com", Value.str "://127.0.0.1:9001") ::
            [("api.example.com", Value.str "http://127.0.0.1:9001")])).entries =
        (main (goWorld none) {}
          ([] ++ [("api.example.com", Value.str "http://127.0.0.1:9001")])).entries :=
  ⟨rfl,
    (unparsable_target_skipped (goWorld none) {} []
      [("api.example.com", Value.str "http://127.0.0.1:9001")] "bad.example.com"
      "://127.0.0.1:9001" "parse: missing protocol scheme" rfl).2.2.2.1⟩

/-- C4: the code at a mapping that holds two pairs with an `http` target.  The
run constructs a proxy for the pair the iteration yields first and for no
other: in either order the routing entries are the one entry of the first pair. -/
theorem two_http_pairs_one_entry :
    (main (goWorld none) {}
        [("a.example.com", Value.str "http://127.0.0.1:9001"),
          ("b.example.com", Value.str "http://127.0.0.1:9002")]).entries =
        [⟨"a.example.com", "http", "127.0.0.1:9001"⟩] ∧
      (main (goWorld none) {}
        [("b.example.com", Value.str "http://127.0.0.1:9002"),
          ("a.example.com", Value.str "http://127.0.0.1:9001")]).entries =
        [⟨"b.example.com", "http", "127.0.0.1:9002"⟩] := by
  constructor <;> rfl

/-- C7: the code at an empty mapping and at a mapping whose entries are all
skipped.  No event happens for the empty mapping and `main` returns; for the
mapping of a comment key, an unparsable target and an `https` target with HTTPS
disabled, ListenAndServe is never called, the mux stays empty and `main` returns. -/
theorem no_listener_without_accepted_entry :
    (∀ (env : World) (flags : Flags),
        main env flags [] = ⟨[], DefaultServeMux, Outcome.returned⟩) ∧
      (main (goWorld none) {}
        [("#disabled.example.com", Value.str "http://127.0.0.1:9002"),
          ("bad.example.com", Value.str "://127.0.0.1:9001"),
          ("secure.example.com", Value.str "https://127.0.0.1:9443")]).listeners = [] ∧
      (main (goWorld none) {}
        [("#disabled.example.com", Value.str "http://127.0.0.1:9002"),
          ("bad.example.com", Value.str "://127.0.0.1:9001"),
          ("secure.example.com", Value.str "https://127.0.0.1:9443")]).mux = DefaultServeMux ∧
      (main (goWorld none) {}
        [("#disabled.example.com", Value.str "http://127.0.0.1:9002"),
          ("bad.example.com", Value.str "://127.0.0.1:9001"),
          ("secure.example.com", Value.str "https://127.0.0.1:9443")]).outcome =
        Outcome.returned := by
  refine ⟨fun env flags => rfl, ?_, ?_, ?_⟩ <;> rfl

/-- C5: the forwarded request.  Whenever the mux that `main` leaves hands a
request to a proxy (by `ServeHTTP`, or by the handler that the lookup returns
at the path of the request for any host), that proxy is the one built for an
accepted pair of the mapping from the parsed target's `Scheme` and `Host` only
(its target has no path and no query, whatever the configured URL holds), the
request handed over is the inbound one, and in the request the director sends
to the backend the scheme and host are those of the parsed target while path
and query are those of the inbound request. -/
theorem forwarded_destination (env : World) (flags : Flags) (proxies : List (String × Value))
    (w w1 : Header) (req r1 : Request) (p : ReverseProxy)
    (h : (∃ host, ((main env flags proxies).mux.handler host req.URL.Path).1.ServeHTTP w req =
          Served.proxied p w1 r1) ∨
        (main env flags proxies).mux.ServeHTTP w req = Served.proxied p w1 r1) :
    r1 = req ∧
      (∃ host target u, (host, target) ∈ proxies ∧ accepted env flags host target = some u ∧
        (main env flags proxies).entries = [⟨host, u.Scheme, u.Host⟩] ∧
        p = NewSingleHostReverseProxy { Scheme := u.Scheme, Host := u.Host } ∧
        (p.outreq r1).URL.Scheme = u.Scheme ∧ (p.outreq r1).URL.Host = u.Host) ∧
      (p.outreq r1).URL.Path = req.URL.Path ∧
      (p.outreq r1).URL.RawQuery = req.URL.RawQuery ∧
      (p.outreq r1).Method = req.Method := by
  have h' : ∃ host, ((main env flags proxies).mux.handler host req.URL.Path).1.ServeHTTP w req =
      Served.proxied p w1 r1 := by
    rcases h with h | h
    · exact h
    · exact serveHTTP_proxied_lookup _ w w1 req r1 p h
  clear h
  obtain ⟨rhost, h⟩ := h'
  rcases proxies_cases env flags proxies with hall | ⟨before, host, target, after, rfl, hb, hx⟩
  · obtain ⟨_, hm, _⟩ := main_all_skipped env flags proxies hall
    rw [hm, handler_default] at h
    simp [Handler.ServeHTTP] at h
  · rcases hx with ⟨hc, rfl⟩ | ⟨u, hu⟩
    · obtain ⟨_, hm, _⟩ := main_first_nonString env flags before after host hb hc
      rw [hm, handler_default] at h
      simp [Handler.ServeHTTP] at h
    · obtain ⟨_, hm, _⟩ := main_first_accepted env flags before after host target u hb hu
      obtain ⟨he, _, _⟩ := main_first_accepted_lists env flags before after host target u hb hu
      rw [hm, handler_single] at h
      by_cases hp : HasPrefix req.URL.Path "/" = true
      · simp only [hp, if_true, registered, Handler.ServeHTTP, Served.proxied.injEq] at h
        obtain ⟨rfl, _, rfl⟩ := h
        refine ⟨rfl, ⟨host, target, u, mem_split_pair before after host target, hu, he, rfl,
          rfl, rfl⟩, ?_, ?_, rfl⟩
        · simp [ReverseProxy.outreq, ReverseProxy.Director, NewSingleHostReverseProxy,
            singleJoiningSlash_empty _ hp]
        · simp [ReverseProxy.outreq, ReverseProxy.Director, NewSingleHostReverseProxy]
      · simp [hp, Handler.ServeHTTP] at h

theorem forwarded_destination_witness :
    (main (goWorld none) {}
          [("api.example.com", Value.str "http://127.0.0.1:9001/base?x=1")]).mux.ServeHTTP
        (fun _ => none)
        { Host := "api.example.com", URL := { Path := "/v1/items", RawQuery := "page=2" },
          RequestURI := "/v1/items?page=2" } =
      Served.proxied ⟨{ Scheme := "http", Host := "127.0.0.1:9001" }⟩
        (Header.Set (Header.Set (fun _ => none) "Access-Control-Allow-Origin" "*")
          "Access-Control-Allow-Headers" "X-Requested-With")
        { Host := "api.example.com", URL := { Path := "/v1/items", RawQuery := "page=2" },
          RequestURI := "/v1/items?page=2" } ∧
      ((⟨{ Scheme := "http", Host := "127.0.0.1:9001" }⟩ : ReverseProxy).outreq
        { Host := "api.example.com", URL := { Path := "/v1/items", RawQuery := "page=2" },
          RequestURI := "/v1/items?page=2" }).URL.Path = "/v1/items" ∧
      ((⟨{ Scheme := "http", Host := "127.0.0.1:9001" }⟩ : ReverseProxy).outreq
        { Host := "api.example.com", URL := { Path := "/v1/items", RawQuery := "page=2" },
          RequestURI := "/v1/items?page=2" }).URL.RawQuery = "page=2" :=
  ⟨rfl,
    (forwarded_destination (goWorld none) {}
      [("api.example.com", Value.str "http://127.0.0.1:9001/base?x=1")] (fun _ => none) _
      { Host := "api.example.com", URL := { Path := "/v1/items", RawQuery := "page=2" },
        RequestURI := "/v1/items?page=2" } _ _
      (Or.inr rfl)).2.2.1,
    (forwarded_destination (goWorld none) {}
      [("api.example.com", Value.str "http://127.0.0.1:9001/base?x=1")] (fun _ => none) _
      { Host := "api.example.com", URL := { Path := "/v1/items", RawQuery := "page=2" },
        RequestURI := "/v1/items?page=2" } _ _
      (Or.inr rfl)).2.2.2.1⟩

/-- C6: the CORS headers.  The registered handler hands the request to its
proxy with a response header map in which `Access-Control-Allow-Origin` is
exactly `*` and `Access-Control-Allow-Headers` is exactly `X-Requested-With`,
whatever those keys held before, and in which every other key holds what it
held before; the same is true of every hand-over to a proxy that any handler
makes, and of every hand-over that a mux serving the request makes. -/
theorem cors_headers_set (w : Header) (req : Request) :
    (∀ p : ReverseProxy, ∃ w2 : Header,
        (registered p).ServeHTTP w req = Served.proxied p w2 req ∧
        w2 "Access-Control-Allow-Origin" = some ["*"] ∧
        w2 "Access-Control-Allow-Headers" = some ["X-Requested-With"] ∧
        ∀ k : String, k ≠ "Access-Control-Allow-Origin" → k ≠ "Access-Control-Allow-Headers" →
          w2 k = w k) ∧
      (∀ (hd : Handler) (p : ReverseProxy) (w1 : Header) (r1 : Request),
        hd.ServeHTTP w req = Served.proxied p w1 r1 →
        w1 "Access-Control-Allow-Origin" = some ["*"] ∧
        w1 "Access-Control-Allow-Headers" = some ["X-Requested-With"] ∧
        ∀ k : String, k ≠ "Access-Control-Allow-Origin" → k ≠ "Access-Control-Allow-Headers" →
          w1 k = w k) ∧
      (∀ (mux : ServeMux) (p : ReverseProxy) (w1 : Header) (r1 : Request),
        mux.ServeHTTP w req = Served.proxied p w1 r1 →
        w1 "Access-Control-Allow-Origin" = some ["*"] ∧
        w1 "Access-Control-Allow-Headers" = some ["X-Requested-With"] ∧
        ∀ k : String, k ≠ "Access-Control-Allow-Origin" → k ≠ "Access-Control-Allow-Headers" →
          w1 k = w k) := by
  have c1 : CanonicalMIMEHeaderKey "Access-Control-Allow-Origin" =
      "Access-Control-Allow-Origin" := by rfl
  have c2 : CanonicalMIMEHeaderKey "Access-Control-Allow-Headers" =
      "Access-Control-Allow-Headers" := by rfl
  have key : ∀ p : ReverseProxy, ∃ w2 : Header,
      (Handler.registered p).ServeHTTP w req = Served.proxied p w2 req ∧
      w2 "Access-Control-Allow-Origin" = some ["*"] ∧
      w2 "Access-Control-Allow-Headers" = some ["X-Requested-With"] ∧
      ∀ k : String, k ≠ "Access-Control-Allow-Origin" → k ≠ "Access-Control-Allow-Headers" →
        w2 k = w k := by
    intro p
    refine ⟨_, rfl, ?_, ?_, ?_⟩
    · simp only [Header.Set, c1, c2]
      simp
    · simp only [Header.Set, c1, c2]
      simp
    · intro k h1 h2
      simp only [Header.Set, c1, c2]
      simp [h1, h2]
  have any : ∀ (hd : Handler) (p : ReverseProxy) (w1 : Header) (r1 : Request),
      hd.ServeHTTP w req = Served.proxied p w1 r1 →
      w1 "Access-Control-Allow-Origin" = some ["*"] ∧
      w1 "Access-Control-Allow-Headers" = some ["X-Requested-With"] ∧
      ∀ k : String, k ≠ "Access-Control-Allow-Origin" → k ≠ "Access-Control-Allow-Headers" →
        w1 k = w k := by
    intro hd p w1 r1 h
    cases hd with
    | notFound => simp [Handler.ServeHTTP] at h
    | redirect u => simp [Handler.ServeHTTP] at h
    | registered q =>
      obtain ⟨w2, e1, e2⟩ := key q
      rw [e1] at h
      simp only [Served.proxied.injEq] at h
      obtain ⟨_, rfl, _⟩ := h
      exact e2
  refine ⟨key, any, ?_⟩
  intro mux p w1 r1 h
  obtain ⟨host, hl⟩ := serveHTTP_proxied_lookup mux w w1 req r1 p h
  exact any _ p w1 r1 hl

theorem cors_headers_set_witness :
    (main (goWorld none) {}
          [("api.example.com", Value.str "http://127.0.0.1:9001")]).mux.ServeHTTP
        (fun k => if k = "Access-Control-Allow-Origin" then some ["https://old.example"]
          else none)
        { Host := "api.example.com", URL := { Path := "/v1/items" },
          RequestURI := "/v1/items" } =
      Served.proxied ⟨{ Scheme := "http", Host := "127.0.0.1:9001" }⟩
        (Header.Set (Header.Set
          (fun k => if k = "Access-Control-Allow-Origin" then some ["https://old.example"]
            else none) "Access-Control-Allow-Origin" "*")
          "Access-Control-Allow-Headers" "X-Requested-With")
        { Host := "api.example.com", URL := { Path := "/v1/items" },
          RequestURI := "/v1/items" } ∧
      (Header.Set (Header.Set
          (fun k => if k = "Access-Control-Allow-Origin" then some ["https://old.example"]
            else none) "Access-Control-Allow-Origin" "*")
          "Access-Control-Allow-Headers" "X-Requested-With") "Access-Control-Allow-Origin" =
        some ["*"] :=
  ⟨rfl,
    ((cors_headers_set
      (fun k => if k = "Access-Control-Allow-Origin" then some ["https://old.example"]
        else none)
      { Host := "api.example.com", URL := { Path := "/v1/items" },
        RequestURI := "/v1/items" }).2.2
      (main (goWorld none) {} [("api.example.com", Value.str "http://127.0.0.1:9001")]).mux
      _ _ _ rfl).1⟩

/-- C8, as stated, fails: it is not true that a request whose Host is the
hostPattern of no routing entry gets the not-found reply.  With the one entry
`api.example.com`, the request `GET /v1/items` for the host
`other.example.com` is handed to the proxy of that entry. -/
theorem unmatched_host_is_forwarded :
    ¬ ∀ (env : World) (flags : Flags) (proxies : List (String × Value)) (w : Header)
        (req : Request),
        (∀ e ∈ (main env flags proxies).entries, e.hostPattern ≠ req.Host) →
        (main env flags proxies).mux.ServeHTTP w req = Served.notFound := by
  intro h
  have he : (main (goWorld none) {}
      [("api.example.com", Value.str "http://127.0.0.1:9001")]).entries =
      [⟨"api.example.com", "http", "127.0.0.1:9001"⟩] := rfl
  have h1 := h (goWorld none) {} [("api.example.com", Value.str "http://127.0.0.1:9001")]
    (fun _ => none)
    { Host := "other.example.com", URL := { Path := "/v1/items" }, RequestURI := "/v1/items" }
    (by
      intro e hm
      rw [he, List.mem_singleton] at hm
      subst hm
      decide)
  have h2 : (main (goWorld none) {}
      [("api.example.com", Value.str "http://127.0.0.1:9001")]).mux.ServeHTTP (fun _ => none)
      { Host := "other.example.com", URL := { Path := "/v1/items" },
        RequestURI := "/v1/items" } =
      Served.proxied ⟨{ Scheme := "http", Host := "127.0.0.1:9001" }⟩
        (Header.Set (Header.Set (fun _ => none) "Access-Control-Allow-Origin" "*")
          "Access-Control-Allow-Headers" "X-Requested-With")
        { Host := "other.example.com", URL := { Path := "/v1/items" },
          RequestURI := "/v1/items" } := rfl
  rw [h2] at h1
  exact Served.noConfusion h1

/-- C8, amended: dispatch does not look at the Host.  A handler that `main`
registers is registered under the pattern `/`, which names no host, and is the
closure over the proxy of an accepted pair with that key.  With it registered,
the mux serving a request answers by the request URI, the method and the path
alone: 400 for the request URI `*`; for CONNECT the handler when the path
begins with `/` and not-found otherwise; for every other method the handler
when the path is its own cleaned form and a redirect to the cleaned path
otherwise.  So a request that is handed to the proxy is handed to the same
proxy with the same headers under every other Host. -/
theorem dispatch_ignores_host (env : World) (flags : Flags) (proxies : List (String × Value))
    (key pattern : String) (h : Handler)
    (hm : (key, pattern, h) ∈ (main env flags proxies).handlers) :
    pattern = "/" ∧
      (∃ (target : Value) (u : URL), (key, target) ∈ proxies ∧
        accepted env flags key target = some u ∧
        h = registered (NewSingleHostReverseProxy { Scheme := u.Scheme, Host := u.Host })) ∧
      (∀ (w : Header) (r : Request),
        (main env flags proxies).mux.ServeHTTP w r =
          if r.RequestURI = "*" then Served.badRequest
          else if r.Method = "CONNECT" then
            (if HasPrefix r.URL.Path "/" then h.ServeHTTP w r else Served.notFound)
          else if cleanPath r.URL.Path = r.URL.Path then h.ServeHTTP w r
          else Served.redirect { r.URL with Path := cleanPath r.URL.Path }) ∧
      (∀ (w w1 : Header) (r r1 : Request) (p : ReverseProxy) (host1 : String),
        (main env flags proxies).mux.ServeHTTP w r = Served.proxied p w1 r1 →
        (main env flags proxies).mux.ServeHTTP w { r with Host := host1 } =
          Served.proxied p w1 { r with Host := host1 }) := by
  rcases proxies_cases env flags proxies with hall | ⟨before, host, target, after, rfl, hb, hx⟩
  · obtain ⟨he, _, _⟩ := main_all_skipped env flags proxies hall
    rw [handlers_of_effects, he] at hm
    simp at hm
  · rcases hx with ⟨hc, rfl⟩ | ⟨u, hu⟩
    · obtain ⟨he, _, _⟩ := main_first_nonString env flags before after host hb hc
      rw [handlers_of_effects, he] at hm
      simp at hm
    · obtain ⟨_, hmux, _⟩ := main_first_accepted env flags before after host target u hb hu
      obtain ⟨_, hh, _⟩ := main_first_accepted_lists env flags before after host target u hb hu
      rw [hh, List.mem_singleton] at hm
      simp only [Prod.mk.injEq] at hm
      obtain ⟨rfl, rfl, rfl⟩ := hm
      have hserve : ∀ (w : Header) (r : Request),
          (main env flags (before ++ (key, target) :: after)).mux.ServeHTTP w r =
            if r.RequestURI = "*" then Served.badRequest
            else if r.Method = "CONNECT" then
              (if HasPrefix r.URL.Path "/" then
                (registered (NewSingleHostReverseProxy
                  { Scheme := u.Scheme, Host := u.Host })).ServeHTTP w r
              else Served.notFound)
            else if cleanPath r.URL.Path = r.URL.Path then
              (registered (NewSingleHostReverseProxy
                { Scheme := u.Scheme, Host := u.Host })).ServeHTTP w r
            else Served.redirect { r.URL with Path := cleanPath r.URL.Path } := by
        intro w r
        rw [hmux, serveHTTP_single]
      refine ⟨rfl, ⟨target, u, mem_split_pair before after key target, hu, rfl⟩, hserve, ?_⟩
      intro w w1 r r1 p host1 hp
      rw [hserve] at hp ⊢
      by_cases hu1 : r.RequestURI = "*"
      · simp [hu1] at hp
      · simp only [hu1, if_false] at hp ⊢
        by_cases hm1 : r.Method = "CONNECT"
        · simp only [hm1, if_true] at hp ⊢
          by_cases hx : HasPrefix r.URL.Path "/" = true
          · simp only [hx, if_true, registered, Handler.ServeHTTP, Served.proxied.injEq] at hp ⊢
            obtain ⟨h1, h2, _⟩ := hp
            exact ⟨h1, h2, trivial⟩
          · simp [hx] at hp
        · simp only [hm1, if_false] at hp ⊢
          by_cases hc : cleanPath r.URL.Path = r.URL.Path
          · simp only [hc, if_true, registered, Handler.ServeHTTP, Served.proxied.injEq] at hp ⊢
            obtain ⟨h1, h2, _⟩ := hp
            exact ⟨h1, h2, trivial⟩
          · simp [hc] at hp

theorem dispatch_ignores_host_witness :
    ("api.example.com", "/", registered ⟨{ Scheme := "http", Host := "127.0.0.1:9001" }⟩) ∈
        (main (goWorld none) {}
          [("api.example.com", Value.str "http://127.0.0.1:9001")]).handlers ∧
      (main (goWorld none) {}
          [("api.example.com", Value.str "http://127.0.0.1:9001")]).mux.ServeHTTP
        (fun _ => none)
        { Host := "api.example.com", URL := { Path := "/v1/items" },
          RequestURI := "/v1/items" } =
        Served.proxied ⟨{ Scheme := "http", Host := "127.0.0.1:9001" }⟩
          (Header.Set (Header.Set (fun _ => none) "Access-Control-Allow-Origin" "*")
            "Access-Control-Allow-Headers" "X-Requested-With")
          { Host := "api.example.com", URL := { Path := "/v1/items" },
            RequestURI := "/v1/items" } ∧
      (main (goWorld none) {}
          [("api.example.com", Value.str "http://127.0.0.1:9001")]).mux.ServeHTTP
        (fun _ => none)
        { Host := "other.example.com", URL := { Path := "/v1/items" },
          RequestURI := "/v1/items" } =
        Served.proxied ⟨{ Scheme := "http", Host := "127.0.0.1:9001" }⟩
          (Header.Set (Header.Set (fun _ => none) "Access-Control-Allow-Origin" "*")
            "Access-Control-Allow-Headers" "X-Requested-With")
          { Host := "other.example.com", URL := { Path := "/v1/items" },
            RequestURI := "/v1/items" } :=
  ⟨List.mem_singleton.mpr rfl, rfl,
    (dispatch_ignores_host (goWorld none) {}
      [("api.example.com", Value.str "http://127.0.0.1:9001")] "api.example.com" "/"
      (registered ⟨{ Scheme := "http", Host := "127.0.0.1:9001" }⟩)
      (List.mem_singleton.mpr rfl)).2.2.2 (fun _ => none) _
      { Host := "api.example.com", URL := { Path := "/v1/items" }, RequestURI := "/v1/items" }
      _ _ "other.example.com" rfl⟩

/-- C9, as stated, fails: it is not true that every accepted entry has a
non-empty backendAuthority.  The bare word `localhost` parses without error
into a URL with an empty host, and the entry is accepted with the empty
authority. -/
theorem bare_word_target_is_accepted :
    ¬ ∀ (env : World) (flags : Flags) (proxies : List (String × Value)),
        ∀ e ∈ (main env flags proxies).entries,
          e.backendAuthority ≠ "" ∧ HasPrefix e.hostPattern "#" = false := by
  intro h
  have he : (main (goWorld none) {} [("api.example.com", Value.str "localhost")]).entries =
      [⟨"api.example.com", "", ""⟩] := rfl
  have h1 := h (goWorld none) {} [("api.example.com", Value.str "localhost")]
    ⟨"api.example.com", "", ""⟩ (by rw [he]; exact List.mem_singleton.mpr rfl)
  exact h1.1 rfl

/-- C9, amended: every entry the builder accepts has a hostPattern that does
not start with `#`, and comes from a pair of the mapping whose target is a
string that parses without error into a URL whose scheme is not `https` while
HTTPS is disabled; its backendScheme and backendAuthority are the `Scheme` and
`Host` of that URL, whatever they are. -/
theorem accepted_entry_invariant (env : World) (flags : Flags)
    (proxies : List (String × Value)) (e : RoutingEntry)
    (he : e ∈ (main env flags proxies).entries) :
    HasPrefix e.hostPattern "#" = false ∧
      ∃ (s : String) (u : URL), (e.hostPattern, Value.str s) ∈ proxies ∧
        env.Parse s = Except.ok u ∧
        ¬ (u.Scheme = "https" ∧ flags.httpsEnabled = false) ∧
        e.backendScheme = u.Scheme ∧ e.backendAuthority = u.Host := by
  simp only [Run.entries, List.mem_filterMap] at he
  obtain ⟨⟨k, ev⟩, hm, hx⟩ := he
  cases ev <;> simp at hx
  rename_i p
  subst hx
  obtain ⟨target, hmem, hev⟩ := trace_mem env flags k _ proxies DefaultServeMux hm
  obtain ⟨u, hu, hcase⟩ :=
    body_events_effect env flags DefaultServeMux k target _ hev (by simp [Event.isLog])
  obtain ⟨hc, s, rfl, hp, hs⟩ := accepted_spec env flags k target u hu
  rcases hcase with h1 | h1 | h1 | h1
  · simp only [Event.newProxy.injEq] at h1
    subst h1
    exact ⟨hc, s, u, hmem, hp, hs, rfl, rfl⟩
  · simp at h1
  · simp at h1
  · simp at h1

theorem accepted_entry_invariant_witness :
    (⟨"api.example.com", "", ""⟩ : RoutingEntry) ∈
        (main (goWorld none) {} [("api.example.com", Value.str "localhost")]).entries ∧
      HasPrefix "api.example.com" "#" = false :=
  ⟨List.mem_singleton.mpr rfl,
    (accepted_entry_invariant (goWorld none) {} [("api.example.com", Value.str "localhost")]
      ⟨"api.example.com", "", ""⟩ (List.mem_singleton.mpr rfl)).1⟩

/-- C10: the listener is started inside the iteration.  For every mapping in
every order: at most one handler is registered, at most one proxy is
constructed, ListenAndServe is called at most once, the mux ends with at most
one pattern, and the run never ends in the panic of a second registration of
`/` (which a registration on a mux that already holds `/` would raise).  When
the pairs before a pair are all skipped and that pair is accepted, the run does
not depend on the pairs after it; its last event is the call of ListenAndServe
in the iteration of that pair, after which the run is serving or has ended in
the fatal error the call returned; the one handler, on the pattern `/`, is the
closure over the proxy of that pair, and the handler lookup of the mux returns
that handler or the not-found handler, so no other backend is reachable. -/
theorem listener_inside_iteration (env : World) (flags : Flags)
    (proxies : List (String × Value)) :
    ((main env flags proxies).handlers.length ≤ 1 ∧
        (main env flags proxies).entries.length ≤ 1 ∧
        (main env flags proxies).listeners.length ≤ 1 ∧
        (main env flags proxies).mux.m.length ≤ 1) ∧
      (main env flags proxies).outcome ≠ Outcome.panicked "http: multiple registrations for /" ∧
      (∀ (mux : ServeMux) (h1 h2 : Handler), ServeMux.lookup mux.m "/" = some h1 →
        mux.Handle "/" h2 = Except.error "http: multiple registrations for /") ∧
      (∀ (before after : List (String × Value)) (host : String) (target : Value) (u : URL),
        proxies = before ++ (host, target) :: after →
        (∀ x ∈ before, skipped env flags x.1 x.2 = true) →
        accepted env flags host target = some u →
        (∀ after1 : List (String × Value),
            main env flags (before ++ (host, target) :: after1) = main env flags proxies) ∧
          (∃ pre, (main env flags proxies).trace =
            pre ++ [(host, Event.listenAndServe flags.httpAddress)]) ∧
          ((env.ListenAndServe flags.httpAddress = none ∧
              (main env flags proxies).outcome = Outcome.serving) ∨
            ∃ err, env.ListenAndServe flags.httpAddress = some err ∧
              (main env flags proxies).outcome = Outcome.fatal err) ∧
          (main env flags proxies).listeners = [(host, flags.httpAddress)] ∧
          (main env flags proxies).handlers =
            [(host, "/", registered (NewSingleHostReverseProxy
              { Scheme := u.Scheme, Host := u.Host }))] ∧
          (main env flags proxies).entries = [⟨host, u.Scheme, u.Host⟩] ∧
          ∀ h path : String,
            (main env flags proxies).mux.handler h path =
                (registered (NewSingleHostReverseProxy
                  { Scheme := u.Scheme, Host := u.Host }), "/") ∨
              (main env flags proxies).mux.handler h path = (Handler.notFound, "")) := by
  refine ⟨?_, ?_, handle_registered, ?_⟩
  · rcases proxies_cases env flags proxies with hall | ⟨before, host, target, after, rfl, hb, hx⟩
    · obtain ⟨he, hm, _⟩ := main_all_skipped env flags proxies hall
      rw [handlers_of_effects, entries_of_effects, listeners_of_effects, he, hm]
      simp [DefaultServeMux]
    · rcases hx with ⟨hc, rfl⟩ | ⟨u, hu⟩
      · obtain ⟨he, hm, _⟩ := main_first_nonString env flags before after host hb hc
        rw [handlers_of_effects, entries_of_effects, listeners_of_effects, he, hm]
        simp [DefaultServeMux]
      · obtain ⟨_, hm, _⟩ := main_first_accepted env flags before after host target u hb hu
        obtain ⟨h1, h2, h3⟩ :=
          main_first_accepted_lists env flags before after host target u hb hu
        rw [h1, h2, h3, hm]
        simp
  · rcases proxies_cases env flags proxies with hall | ⟨before, host, target, after, rfl, hb, hx⟩
    · obtain ⟨_, _, ho⟩ := main_all_skipped env flags proxies hall
      rw [ho]
      simp
    · rcases hx with ⟨hc, rfl⟩ | ⟨u, hu⟩
      · obtain ⟨_, _, ho⟩ := main_first_nonString env flags before after host hb hc
        rw [ho]
        simp only [ne_eq, Outcome.panicked.injEq]
        decide
      · obtain ⟨_, _, ho⟩ := main_first_accepted env flags before after host target u hb hu
        rcases ho with ⟨_, ho⟩ | ⟨err, _, ho⟩ <;> rw [ho] <;> simp
  · intro before after host target u hp hb hu
    subst hp
    obtain ⟨_, hm, ho⟩ := main_first_accepted env flags before after host target u hb hu
    obtain ⟨h1, h2, h3⟩ := main_first_accepted_lists env flags before after host target u hb hu
    refine ⟨?_, main_first_accepted_last env flags before after host target u hb hu, ho, h3,
      h2, h1, ?_⟩
    · intro after1
      exact rangeLoop_stop_rest env flags host target after1 after
        (accepted_ne_next env flags host target u hu) before DefaultServeMux
    · intro h path
      rw [hm, handler_single]
      by_cases hx : HasPrefix path "/" = true
      · left; simp [hx]
      · right; simp [hx]

theorem listener_inside_iteration_witness :
    skipped (goWorld none) {} "#disabled.example.com" (Value.str "http://127.0.0.1:9002") =
        true ∧
      accepted (goWorld none) {} "a.example.com" (Value.str "http://127.0.0.1:9001") =
        some { Scheme := "http", Host := "127.0.0.1:9001" } ∧
      (main (goWorld none) {}
        [("#disabled.example.com", Value.str "http://127.0.0.1:9002"),
          ("a.example.com", Value.str "http://127.0.0.1:9001"),
          ("b.example.com", Value.str "http://127.0.0.1:9002")]).listeners =
        [("a.example.com", ":8080")] ∧
      (main (goWorld none) {}
        [("#disabled.example.com", Value.str "http://127.0.0.1:9002"),
          ("a.example.com", Value.str "http://127.0.0.1:9001"),
          ("b.example.com", Value.str "http://127.0.0.1:9002")]).entries =
        [⟨"a.example.com", "http", "127.0.0.1:9001"⟩] :=
  ⟨rfl, rfl,
    ((listener_inside_iteration (goWorld none) {}
      [("#disabled.example.com", Value.str "http://127.0.0.1:9002"),
        ("a.example.com", Value.str "http://127.0.0.1:9001"),
        ("b.example.com", Value.str "http://127.0.0.1:9002")]).2.2.2
      [("#disabled.example.com", Value.str "http://127.0.0.1:9002")]
      [("b.example.com", Value.str "http://127.0.0.1:9002")] "a.example.com"
      (Value.str "http://127.0.0.1:9001") { Scheme := "http", Host := "127.0.0.1:9001" } rfl
      (by
        intro x hx
        rw [List.mem_singleton] at hx
        subst hx
        rfl)
      rfl).2.2.2.1,
    ((listener_inside_iteration (goWorld none) {}
      [("#disabled.example.com", Value.str "http://127.0.0.1:9002"),
        ("a.example.com", Value.str "http://127.0.0.1:9001"),
        ("b.example.com", Value.str "http://127.0.0.1:9002")]).2.2.2
      [("#disabled.example.com", Value.str "http://127.0.0.1:9002")]
      [("b.example.com", Value.str "http://127.0.0.1:9002")] "a.example.com"
      (Value.str "http://127.0.0.1:9001") { Scheme := "http", Host := "127.0.0.1:9001" } rfl
      (by
        intro x hx
        rw [List.mem_singleton] at hx
        subst hx
        rfl)
      rfl).2.2.2.2.2.1⟩

end Reverseproxy
